import Mathlib

/-!
Verification development for the debate-ui dialogue engine.

The definitions below are a shallow embedding of the Python sources:
`agent/utils.py` (answer extraction), `agent/client.py` (the model gateway),
`agent/framework.py` (the simulated and dual-agent dialogue protocols),
`evaluation/solution_evolution.py` (agreement / correctness pattern
classification) and `evaluation/core.py` (batched evaluation accounting).

Modelling conventions:
* strings are ASCII Lean `String`s; Python regex searches over them are
  embedded as explicit character-list scanners with Python's leftmost-match
  and greedy/backtracking semantics for the concrete patterns in the source;
* the remote LLM call is abstracted as an oracle `List Message → String`
  giving the text returned by the gateway for a request; exceptions raised
  by Python code are modelled with `Except`;
* Python float ratio comparisons (small-integer counts divided by list
  lengths) are modelled exactly by cross-multiplication of naturals, which
  agrees with IEEE double comparison for all list sizes that matter here;
* in-place mutation of a caller's list (`list.sort`) is modelled by
  returning the possibly-mutated list alongside the result.
-/

namespace DebateUI

/-- ASCII whitespace recognized by Python `str.strip` and the regex class `\s`. -/
def isPySpace (c : Char) : Bool :=
  c == ' ' || c == '\t' || c == '\n' || c == '\r' ||
    c == Char.ofNat 11 || c == Char.ofNat 12

/-- Python `str.strip()` on a character list. -/
def pyStripL (l : List Char) : List Char :=
  ((l.dropWhile isPySpace).reverse.dropWhile isPySpace).reverse

/-- Python `str.strip()`. -/
def pyStrip (s : String) : String := String.mk (pyStripL s.data)

/-- Case-insensitive test that `marker` (written in lowercase) matches the
front of `l`, as the `re.IGNORECASE` flag does for a literal pattern. -/
def ciIsPrefixOf : List Char → List Char → Bool
  | [], _ => true
  | _ :: _, [] => false
  | m :: ms, c :: cs => m.toLower == c.toLower && ciIsPrefixOf ms cs

/-- The text matched by `\s*([^\n]+)` at the start of `rest`, following
Python's greedy matching with backtracking: skip maximal whitespace, then
capture up to the next newline; when `rest` is all whitespace the engine
backs off `\s*` until a single non-newline character can be captured. -/
def tailCapture (rest : List Char) : Option (List Char) :=
  match rest.dropWhile isPySpace with
  | c :: cs => some ((c :: cs).takeWhile (fun d => !(d == '\n')))
  | [] =>
    match rest.reverse.find? (fun d => !(d == '\n')) with
    | some c => some [c]
    | none => none

/-- Embeds `re.search(marker + r'\s*([^\n]+)', text, re.IGNORECASE)`: return the
captured group of the leftmost position where the whole pattern matches. -/
def scanMarker (marker : List Char) : List Char → Option (List Char)
  | [] => none
  | c :: cs =>
    if ciIsPrefixOf marker (c :: cs) then
      match tailCapture ((c :: cs).drop marker.length) with
      | some g => some g
      | none => scanMarker marker cs
    else
      scanMarker marker cs

/-- Number of leading `*` characters. -/
def starCount (l : List Char) : Nat := (l.takeWhile (fun c => c == '*')).length

/-- Embeds `re.search(r'^\*{0,2}([A-Z])\*{0,2}', answer, re.IGNORECASE)` followed by
`.upper()` on the captured letter. -/
def letterNarrow (ans : List Char) : Option String :=
  let j := starCount ans
  if j ≤ 2 then
    match ans.drop j with
    | c :: _ => if c.isAlpha then some (String.mk [c.toUpper]) else none
    | [] => none
  else none

/-- The bracketed work-in-progress alternatives of the integer format check. -/
def wipTail (rest : List Char) : Bool :=
  match rest.dropWhile isPySpace with
  | '[' :: r2 =>
    ciIsPrefixOf "working]".data r2 || ciIsPrefixOf "calculating]".data r2 ||
      ciIsPrefixOf "in progress]".data r2
  | _ => false

/-- Embeds `re.search(r'Answer:\s*\[(working|calculating|in progress)\]', answer, re.IGNORECASE)`. -/
def hasWipMarker : List Char → Bool
  | [] => false
  | c :: cs =>
    (ciIsPrefixOf "answer:".data (c :: cs) &&
      wipTail ((c :: cs).drop "answer:".data.length)) || hasWipMarker cs

/-- Maximal run of decimal digits. -/
def digitRun (l : List Char) : List Char := l.takeWhile Char.isDigit

/-- Embeds `re.search(r'^\*{0,2}(-?\d+)\*{0,2}', answer)` preceded by the
work-in-progress rejection of the integer format. -/
def intNarrow (ans : List Char) : Option String :=
  if hasWipMarker ans then none
  else
    let j := starCount ans
    if j ≤ 2 then
      match ans.drop j with
      | '-' :: rest =>
        if (digitRun rest).isEmpty then none
        else some (String.mk ('-' :: digitRun rest))
      | rest =>
        if (digitRun rest).isEmpty then none else some (String.mk (digitRun rest))
    else none

/-- Maximal run of ASCII letters. -/
def alphaRun (l : List Char) : List Char := l.takeWhile Char.isAlpha

/-- Embeds `re.search(r'^\*{0,2}([a-zA-Z]+)\*{0,2}', answer)`. -/
def wordNarrow (ans : List Char) : Option String :=
  let j := starCount ans
  if j ≤ 2 then
    let r := alphaRun (ans.drop j)
    if r.isEmpty then none else some (String.mk r)
  else none

/-- Embeds `extract_answer` from `agent/utils.py`: look for the leftmost
`Final Answer:` marker (case-insensitive), falling back to a plain
`Answer:` marker, then narrow the captured line by the expected format. -/
def extract_answer (text : String) (answer_format : String := "letter") :
    Option String :=
  let captured :=
    match scanMarker "final answer:".data text.data with
    | some g => some g
    | none => scanMarker "answer:".data text.data
  match captured with
  | none => none
  | some g =>
    let answer := pyStripL g
    if answer_format == "letter" then letterNarrow answer
    else if answer_format == "integer" then intNarrow answer
    else if answer_format == "word" then wordNarrow answer
    else some (String.mk answer)

/-- Python truthiness of an `Optional[str]`: `None` and `""` are falsy. -/
def pyTruthy : Option String → Bool
  | none => false
  | some s => !(s == "")

/-- A chat message: Python dicts `{role, content}` with an optional `agent` tag. -/
structure Message where
  role : String
  agent : Option String := none
  content : String
deriving DecidableEq, Repr

/-- Helper for Python `str.replace`, with the text's length as fuel. -/
def replaceGo (pat rep : List Char) : Nat → List Char → List Char
  | 0, t => t
  | _ + 1, [] => []
  | fuel + 1, c :: cs =>
    if pat.isPrefixOf (c :: cs) then
      rep ++ replaceGo pat rep fuel ((c :: cs).drop pat.length)
    else
      c :: replaceGo pat rep fuel cs

/-- Python `s.replace(pat, rep)`: non-overlapping left-to-right replacement. -/
def pyReplace (s pat rep : String) : String :=
  String.mk (replaceGo pat.data rep.data s.data.length s.data)

/-- Python `s.split("\n")`. -/
def splitLines : List Char → List (List Char)
  | [] => [[]]
  | c :: cs =>
    if c == '\n' then [] :: splitLines cs
    else
      match splitLines cs with
      | l :: ls => (c :: l) :: ls
      | [] => [[c]]

/-- Python `s.startswith(p)`. -/
def strStarts (p s : String) : Bool := p.data.isPrefixOf s.data

/-- Python `s[n:]` for ASCII strings. -/
def strDropN (s : String) (n : Nat) : String := String.mk (s.data.drop n)

/-- Embeds `re.match(r"^Agent [AB]:", line.strip())` plus `line.strip().split(":")[0]`:
the agent tag opening a (stripped) line, when present. -/
def lineAgentTag (l : List Char) : Option String :=
  let s := pyStripL l
  if "Agent A:".data.isPrefixOf s then some "Agent A"
  else if "Agent B:".data.isPrefixOf s then some "Agent B"
  else none

/-- The line-scanning loop of `_process_simulation_response`: keep lines until
one opens with the tag of the other agent (a mid-response role switch). -/
def keepUntilSwitch (currentRole : String) : List (List Char) → List (List Char)
  | [] => []
  | l :: ls =>
    match lineAgentTag l with
    | some r =>
      if r ≠ currentRole then [] else l :: keepUntilSwitch currentRole ls
    | none => l :: keepUntilSwitch currentRole ls

/-- Embeds `AgentFramework._process_simulation_response`: force a role prefix, then
truncate at any mid-response role switch and re-attach the prefix. -/
def processSimulationResponse (response expectedRole : String) : String :=
  let response :=
    if !strStarts "Agent A:" response && !strStarts "Agent B:" response then
      expectedRole ++ ": " ++ response
    else response
  let currentRole :=
    if strStarts "Agent A:" response then "Agent A"
    else if strStarts "Agent B:" response then "Agent B"
    else expectedRole
  let processedLines := keepUntilSwitch currentRole (splitLines response.data)
  let processed := String.mk (List.intercalate ['\n'] processedLines)
  if currentRole == "Agent A" && !strStarts "Agent A:" processed then
    "Agent A: " ++ processed
  else if currentRole == "Agent B" && !strStarts "Agent B:" processed then
    "Agent B: " ++ processed
  else processed

/-! ## Model gateway (`agent/client.py`)

An attempt oracle gives the outcome of the `i`-th API attempt: `.ok` wraps the
response object, `.error` an exception. `Except` in the result models a raised
exception reaching the caller. -/

/-- Token usage triple reported by the API. -/
structure TokenUsage where
  prompt_tokens : Nat
  completion_tokens : Nat
  total_tokens : Nat
deriving DecidableEq, Repr

def zeroUsage : TokenUsage := ⟨0, 0, 0⟩

/-- A successful chat-completion response: possibly-null content and usage. -/
structure ApiResponse where
  content : Option String
  usage : TokenUsage
deriving DecidableEq

/-- Embeds `raw_response.strip() if raw_response else ""`, paired with the usage. -/
def apiReturn (r : ApiResponse) : String × TokenUsage :=
  (match r.content with
   | some raw => if !(raw == "") then pyStrip raw else ""
   | none => "", r.usage)

/-- An exception in the synchronous client: `transient` marks the
`requests` connection/timeout family that the retry loop catches. -/
structure PyExc where
  transient : Bool
  msg : String

/-- Embeds `APIClient.call_api_async`: three attempts retrying on any exception;
the outer handler catches everything and returns a placeholder text. -/
def call_api_async (attempts : Nat → Except String ApiResponse) :
    Except String (String × TokenUsage) :=
  let inner : Except String (String × TokenUsage) :=
    match attempts 0 with
    | .ok r => .ok (apiReturn r)
    | .error _ =>
      match attempts 1 with
      | .ok r => .ok (apiReturn r)
      | .error _ =>
        match attempts 2 with
        | .ok r => .ok (apiReturn r)
        | .error e => .error e
  match inner with
  | .ok v => .ok v
  | .error e => .ok ("API Error: " ++ e, zeroUsage)

/-- Embeds `APIClient.call_api`: the inner loop retries only transient errors; any
other exception, or the final re-raise, falls to the outer catch-all. -/
def call_api (attempts : Nat → Except PyExc ApiResponse) :
    Except String (String × TokenUsage) :=
  let inner : Except String (String × TokenUsage) :=
    match attempts 0 with
    | .ok r => .ok (apiReturn r)
    | .error e =>
      if e.transient then
        match attempts 1 with
        | .ok r => .ok (apiReturn r)
        | .error e2 =>
          if e2.transient then
            match attempts 2 with
            | .ok r => .ok (apiReturn r)
            | .error e3 => .error e3.msg
          else .error e2.msg
      else .error e.msg
  match inner with
  | .ok v => .ok v
  | .error e => .ok ("API Error: " ++ e, zeroUsage)

/-! ## Simulated dialogue protocol (`AgentFramework.run_simulation`)

The gateway is abstracted as an oracle from the request message list to the
text the (stripped) gateway call returns; token usage is not tracked as no
claim depends on it. -/

/-- The `final_agent` selection: even ids answer as Agent A, odd as Agent B. -/
def finalAgentFor (question_id : Option Int) : String :=
  match question_id with
  | some q => if q % 2 == 0 then "Agent A" else "Agent B"
  | none => "Agent A"

/-- Configuration of one `run_simulation` call: the response oracle, the
strategy's turn count and role prompts, the answer format, the user prompt,
and the designated final agent. -/
structure SimCfg where
  oracle : List Message → String
  numTurns : Nat
  finalAgent : String
  fmt : String
  prompt : String
  promptA : String
  promptB : String

/-- The combined system prompt of the simulated protocol. -/
def simSystemContent (cfg : SimCfg) : String :=
  "You are a reasoning agent who will simulate a structured interaction between two agents—Agent A and Agent B—who are " ++
  "collaborating on solving the given problem. Your task is to alternate between these two agents\x27 perspectives. " ++
  "Each time you see \x27(next turn)\x27, switch to the other agent\x27s role. " ++
  "IMPORTANT: For each response, start with either \x27Agent A:\x27 or \x27Agent B:\x27 to indicate which agent is speaking. " ++
  "DO NOT include \x27(next turn)\x27 in your response as this is just a prompt for you to switch roles. " ++
  "DO NOT switch roles mid-response. Each of your responses must be from ONE agent only. " ++
  "DO NOT simulate how the other agent would respond - wait for the next turn to do that. " ++
  "Agent A should take the position described as: \"" ++ cfg.promptA ++ "\", while " ++
  "Agent B should act as: \"" ++ cfg.promptB ++ "\". " ++
  "When you see \x27(final turn)\x27, " ++ cfg.finalAgent ++ " should provide the final conclusion. In this final turn, " ++
  cfg.finalAgent ++ " should provide a final statement that starts with \x27Final Answer:\x27 the solution based on the entire discussion."

def simSystemMsg (cfg : SimCfg) : Message := ⟨"system", none, simSystemContent cfg⟩

/-- The current speaker: Agent A on even turns. -/
def simRole (turn : Nat) : String := if turn % 2 == 0 then "Agent A" else "Agent B"

/-- The per-turn user directive sent with the request. -/
def simNextPrompt (cfg : SimCfg) (turn : Nat) : String :=
  let role := simRole turn
  if turn == 0 then
    "Please respond as " ++ role ++ ". Remember to only respond as " ++ role ++ ", not both agents:"
  else if turn == cfg.numTurns - 1 then
    "(final turn) This is the final turn. Only " ++ cfg.finalAgent ++ " should respond with the final answer."
  else
    "(next turn) Now respond as " ++ role ++ ". Remember to only respond as " ++ role ++ ", not both agents:"

/-- One turn's gateway call and response post-processing, as a function of
the shared message history at that turn. -/
def simProcOf (cfg : SimCfg) (history : List Message) (turn : Nat) : String :=
  let raw := cfg.oracle (history ++ [⟨"user", none, simNextPrompt cfg turn⟩])
  let cleaned := pyReplace (pyReplace raw "(next turn)" "") "(final turn)" ""
  processSimulationResponse cleaned (simRole turn)

/-- Splitting a processed response into its agent tag and untagged content. -/
def simTag (role : String) (processed : String) : String × String :=
  if strStarts "Agent A:" processed then ("Agent A", pyStrip (strDropN processed 8))
  else if strStarts "Agent B:" processed then ("Agent B", pyStrip (strDropN processed 8))
  else (role, processed)

/-- Reference trace: the shared message history after `t` completed turns,
had no early stop occurred (an early stop only truncates this history). -/
def simHist (cfg : SimCfg) : Nat → List Message
  | 0 => [simSystemMsg cfg, ⟨"user", none, cfg.prompt⟩]
  | t + 1 => simHist cfg t ++ [⟨"assistant", none, simProcOf cfg (simHist cfg t) t⟩]

/-- Reference trace: the processed response of turn `t`. -/
def simProc (cfg : SimCfg) (t : Nat) : String := simProcOf cfg (simHist cfg t) t

/-- Reference trace: the answer extracted from turn `t`'s content. -/
def simAns (cfg : SimCfg) (t : Nat) : Option String :=
  extract_answer (simTag (simRole t) (simProc cfg t)).2 cfg.fmt

/-- The synthetic convergence notice of the simulated protocol. -/
def simConvergenceMsg (a : String) : Message :=
  ⟨"system", some "System", "(Interaction concluded early due to convergence on answer: " ++ a ++ ")"⟩

/-- The one dialogue run, with the result transcript, the final shared
history, and the number of gateway calls made. -/
structure SimOut where
  result : List Message
  messages : List Message
  calls : Nat
deriving DecidableEq

/-- The turn loop of `run_simulation`: `turn` is the loop index, the fuel
counts the turns left of `range(num_turns)`. -/
def simGo (cfg : SimCfg) :
    Nat → Nat → List Message → List Message → Option String → Nat → SimOut
  | _, 0, messages, result, _, calls => ⟨result, messages, calls⟩
  | turn, rem + 1, messages, result, prev, calls =>
    let processed := simProcOf cfg messages turn
    let messages' := messages ++ [⟨"assistant", none, processed⟩]
    let tag := simTag (simRole turn) processed
    let result' := result ++ [⟨"assistant", some tag.1, tag.2⟩]
    if turn < cfg.numTurns - 1 then
      let current := extract_answer tag.2 cfg.fmt
      if pyTruthy current && pyTruthy prev && current == prev then
        ⟨result' ++ [simConvergenceMsg (current.getD "")], messages', calls + 1⟩
      else
        simGo cfg (turn + 1) rem messages' result' current (calls + 1)
    else
      simGo cfg (turn + 1) rem messages' result' prev (calls + 1)

/-- Embeds `AgentFramework.run_simulation` (the strategy's `num_turns` is used as
is, without any cap). -/
def run_simulation (cfg : SimCfg) : SimOut :=
  simGo cfg 0 cfg.numTurns [simSystemMsg cfg, ⟨"user", none, cfg.prompt⟩]
    [⟨"user", none, cfg.prompt⟩] none 0

/-! ## Dual-agent dialogue protocol (`AgentFramework.run_dual_agent`) -/

/-- Configuration of one `run_dual_agent` call. `numTurns` is the loop
bound, i.e. `min(strategy.get_num_turns(), 5)` — see `mkDualCfg`. -/
structure DualCfg where
  oracle : List Message → String
  numTurns : Nat
  finalAgent : String
  fmt : String
  prompt : String
  sysA : Message
  sysB : Message

/-- The enhanced user prompt both agents receive (identical text). -/
def dualEnhancedPrompt (userPrompt : String) : String :=
  "You are in a collaborative dialogue with another agent. " ++
  "Please strictly adhere to your assigned role as specified in the system prompt. " ++
  "Be concise in your responses - this is a dialogue, not a monologue. " ++
  "Provide a final answer when confident enough or when explicitly instructed with \x27(final turn)\x27. " ++
  "The problem to discuss is:\n\n" ++ userPrompt

/-- The final-turn hint for the designated final answerer. -/
def dualFinalHint : String :=
  "This is your final response. Please conclude with \x27Final Answer:\x27 followed by your conclusion based on the entire discussion."

/-- The final-turn hint for the agent that is not the final answerer. -/
def dualThoughtsHint : String :=
  "This is your final response. Please provide your final thoughts on the problem."

def dualInitA (cfg : DualCfg) : List Message :=
  [cfg.sysA, ⟨"user", none, dualEnhancedPrompt cfg.prompt⟩]

def dualInitB (cfg : DualCfg) : List Message :=
  [cfg.sysB, ⟨"user", none, dualEnhancedPrompt cfg.prompt⟩]

/-- The message list actually sent to the gateway at a turn: the acting
agent's history, with the one-off final-turn hint appended when due. -/
def dualRequest (cfg : DualCfg) (msgsA msgsB : List Message) (turn : Nat) :
    List Message :=
  if turn % 2 == 0 then
    if turn == cfg.numTurns - 1 && cfg.finalAgent == "Agent A" then
      msgsA ++ [⟨"user", none, dualFinalHint⟩]
    else msgsA
  else
    if turn == cfg.numTurns - 1 && cfg.finalAgent == "Agent B" then
      msgsB ++ [⟨"user", none, dualFinalHint⟩]
    else if turn == cfg.numTurns - 1 then
      msgsB ++ [⟨"user", none, dualThoughtsHint⟩]
    else msgsB

/-- The gateway response at a turn, as a function of the stored histories. -/
def dualRespOf (cfg : DualCfg) (msgsA msgsB : List Message) (turn : Nat) : String :=
  cfg.oracle (dualRequest cfg msgsA msgsB turn)

/-- Reference trace: both stored histories after `t` completed turns (net of
the hint append/pop, which cancels within a turn). -/
def dualHists (cfg : DualCfg) : Nat → List Message × List Message
  | 0 => (dualInitA cfg, dualInitB cfg)
  | t + 1 =>
    let p := dualHists cfg t
    let r := dualRespOf cfg p.1 p.2 t
    if t % 2 == 0 then
      (p.1 ++ [⟨"assistant", none, r⟩], p.2 ++ [⟨"user", none, "Agent A: " ++ r⟩])
    else
      (p.1 ++ [⟨"user", none, "Agent B: " ++ r⟩], p.2 ++ [⟨"assistant", none, r⟩])

/-- Reference trace: the raw response of turn `t`. -/
def dualResp (cfg : DualCfg) (t : Nat) : String :=
  dualRespOf cfg (dualHists cfg t).1 (dualHists cfg t).2 t

/-- Reference trace: the answer extracted from turn `t`'s raw response. -/
def dualAns (cfg : DualCfg) (t : Nat) : Option String :=
  extract_answer (dualResp cfg t) cfg.fmt

/-- The synthetic convergence notice of the dual-agent protocol. -/
def dualConvergenceMsg (a : String) : Message :=
  ⟨"system", some "System", "(Debate concluded early due to convergence on answer: " ++ a ++ ")"⟩

/-- Result of one dual-agent run: the result transcript, both final stored
histories, and the number of gateway calls. -/
structure DualOut where
  result : List Message
  messagesA : List Message
  messagesB : List Message
  calls : Nat
deriving DecidableEq

/-- The turn loop of `run_dual_agent`. On a final turn the appended hint is
popped right after the gateway call (`messages.pop()`), in both branches. -/
def dualGo (cfg : DualCfg) :
    Nat → Nat → List Message → List Message → List Message → Option String →
      Nat → DualOut
  | _, 0, msgsA, msgsB, result, _, calls => ⟨result, msgsA, msgsB, calls⟩
  | turn, rem + 1, msgsA, msgsB, result, prev, calls =>
    let isFinalTurn := turn == cfg.numTurns - 1
    let response := dualRespOf cfg msgsA msgsB turn
    let st :=
      if turn % 2 == 0 then
        let sentA := dualRequest cfg msgsA msgsB turn
        let msgsA1 :=
          if isFinalTurn && cfg.finalAgent == "Agent A" then sentA.dropLast
          else sentA
        (msgsA1 ++ [⟨"assistant", none, response⟩],
         msgsB ++ [⟨"user", none, "Agent A: " ++ response⟩],
         result ++ [⟨"assistant", some "Agent A", response⟩])
      else
        let sentB := dualRequest cfg msgsA msgsB turn
        let msgsB1 := if isFinalTurn then sentB.dropLast else sentB
        (msgsA ++ [⟨"user", none, "Agent B: " ++ response⟩],
         msgsB1 ++ [⟨"assistant", none, response⟩],
         result ++ [⟨"assistant", some "Agent B", response⟩])
    if turn < cfg.numTurns - 1 then
      let current := extract_answer response cfg.fmt
      if pyTruthy current && pyTruthy prev && current == prev then
        ⟨st.2.2 ++ [dualConvergenceMsg (current.getD "")], st.1, st.2.1, calls + 1⟩
      else
        dualGo cfg (turn + 1) rem st.1 st.2.1 st.2.2 current (calls + 1)
    else
      dualGo cfg (turn + 1) rem st.1 st.2.1 st.2.2 prev (calls + 1)

/-- Embeds `AgentFramework.run_dual_agent` given its loop bound `cfg.numTurns`. -/
def run_dual_agent (cfg : DualCfg) : DualOut :=
  dualGo cfg 0 cfg.numTurns (dualInitA cfg) (dualInitB cfg)
    [⟨"user", none, cfg.prompt⟩] none 0

/-- Assembles the dual configuration as `run_dual_agent` does: the loop
bound is `min(strategy.get_num_turns(), 5)` ("Limit to 5 turns"). -/
def mkDualCfg (oracle : List Message → String) (strategyTurns : Nat)
    (question_id : Option Int) (fmt prompt : String) (sysA sysB : Message) :
    DualCfg :=
  ⟨oracle, min strategyTurns 5, finalAgentFor question_id, fmt, prompt, sysA, sysB⟩

/-! ## Final-answer extraction and scoring
(`AgentFramework.extract_final_answer`, `EvaluationManager._process_question`) -/

/-- The reverse scan of `extract_final_answer` over an already-reversed
message list: first truthy extracted answer wins. -/
def extractFinalFrom (fmt : String) : List Message → String
  | [] => "No final answer found."
  | m :: rest =>
    match extract_answer m.content fmt with
    | some a => if !(a == "") then a else extractFinalFrom fmt rest
    | none => extractFinalFrom fmt rest

/-- Embeds `AgentFramework.extract_final_answer`: scan messages in reverse order,
returning the sentinel string when nothing is extractable. -/
def extract_final_answer (fmt : String) (messages : List Message) : String :=
  extractFinalFrom fmt messages.reverse

/-- Scoring step of `_process_question`: the extracted final answer is passed
to the benchmark comparator like any other answer. -/
def scoreModeAnswer (evaluate : String → String → Bool) (fmt : String)
    (messages : List Message) (ground_truth : String) : Bool :=
  evaluate (extract_final_answer fmt messages) ground_truth

/-! ## Evolution analyzer (`evaluation/solution_evolution.py`) -/

/-- One record of `answer_history`: turn index, agent tag, extracted answer,
and its correctness against the ground truth. -/
structure AnswerEntry where
  turn : Nat
  agent : String
  answer : String
  is_correct : Bool
deriving DecidableEq, Repr

/-- Embeds `determine_agreement_pattern`: a pure classification of the history. -/
def determine_agreement_pattern (answer_history : List AnswerEntry) : String :=
  if answer_history.length < 2 then "Insufficient Data"
  else
    let agent_a_answers :=
      (answer_history.filter (fun i => i.agent == "Agent A")).map AnswerEntry.answer
    let agent_b_answers :=
      (answer_history.filter (fun i => i.agent == "Agent B")).map AnswerEntry.answer
    if agent_a_answers.isEmpty || agent_b_answers.isEmpty then "Insufficient Data"
    else
      let first_a := agent_a_answers.headD ""
      let first_b := agent_b_answers.headD ""
      let last_a := agent_a_answers.getLastD ""
      let last_b := agent_b_answers.getLastD ""
      if first_a == first_b &&
          (agent_a_answers ++ agent_b_answers).all (fun ans => ans == first_a) then
        "Complete Agreement"
      else if last_a == last_b then
        if first_a != first_b ||
            (agent_a_answers.dropLast ++ agent_b_answers.dropLast).any
              (fun ans => !(ans == last_a)) then
          "Resolved Disagreement"
        else "Complete Agreement"
      else "Unresolved Disagreement"

/-- Stable insertion of an entry into a turn-sorted list (earlier list
positions stay in front of equal turn keys, as Python's stable sort does). -/
def insertByTurn (e : AnswerEntry) : List AnswerEntry → List AnswerEntry
  | [] => [e]
  | x :: xs => if x.turn < e.turn then x :: insertByTurn e xs else e :: x :: xs

/-- Embeds `answer_history.sort(key=lambda x: x["turn"])` — a stable sort by turn. -/
def sortByTurn : List AnswerEntry → List AnswerEntry
  | [] => []
  | x :: xs => insertByTurn x (sortByTurn xs)

/-- Exact comparison `num1/den1 > num2/den2` of Python's half ratios, with a
zero ratio for an empty half (`if first_half else 0`). -/
def ratioGt (num1 den1 num2 den2 : Nat) : Bool :=
  if den1 == 0 then false
  else if den2 == 0 then decide (0 < num1)
  else decide (num2 * den1 < num1 * den2)

/-- Number of correct entries. -/
def correctCount (l : List AnswerEntry) : Nat :=
  (l.filter (fun i => i.is_correct)).length

/-- Embeds `determine_correctness_pattern`. The Python function sorts its argument
list **in place** when it falls through to the half-ratio analysis; the
second component is the list as the caller sees it afterwards. -/
def determine_correctness_pattern (answer_history : List AnswerEntry) :
    String × List AnswerEntry :=
  if answer_history.isEmpty then ("Insufficient Data", answer_history)
  else
    let agent_a_history := answer_history.filter (fun i => i.agent == "Agent A")
    let agent_b_history := answer_history.filter (fun i => i.agent == "Agent B")
    if answer_history.all (fun i => i.is_correct) then
      ("Stable Correct", answer_history)
    else if answer_history.all (fun i => !i.is_correct) then
      ("Stable Incorrect", answer_history)
    else if 1 < agent_a_history.length &&
        agent_a_history.head?.map (fun i => i.is_correct) == some false &&
        agent_a_history.getLast?.map (fun i => i.is_correct) == some true then
      ("Improvement", answer_history)
    else if 1 < agent_a_history.length &&
        agent_a_history.head?.map (fun i => i.is_correct) == some true &&
        agent_a_history.getLast?.map (fun i => i.is_correct) == some false then
      ("Deterioration", answer_history)
    else if 1 < agent_b_history.length &&
        agent_b_history.head?.map (fun i => i.is_correct) == some false &&
        agent_b_history.getLast?.map (fun i => i.is_correct) == some true then
      ("Improvement", answer_history)
    else if 1 < agent_b_history.length &&
        agent_b_history.head?.map (fun i => i.is_correct) == some true &&
        agent_b_history.getLast?.map (fun i => i.is_correct) == some false then
      ("Deterioration", answer_history)
    else if (!agent_a_history.isEmpty && agent_a_history.all (fun i => i.is_correct)) ||
        (!agent_b_history.isEmpty && agent_b_history.all (fun i => i.is_correct)) then
      ("Stable Correct (One Agent)", answer_history)
    else
      let sorted := sortByTurn answer_history
      let midpoint := sorted.length / 2
      let first_half := sorted.take midpoint
      let second_half := sorted.drop midpoint
      if ratioGt (correctCount second_half) second_half.length
          (correctCount first_half) first_half.length then
        ("Improvement", sorted)
      else if ratioGt (correctCount first_half) first_half.length
          (correctCount second_half) second_half.length then
        ("Deterioration", sorted)
      else
        let final_correct :=
          (match (sorted.filter (fun i => i.agent == "Agent A")).getLast? with
           | some e => e.is_correct
           | none => false) ||
          (match (sorted.filter (fun i => i.agent == "Agent B")).getLast? with
           | some e => e.is_correct
           | none => false)
        if final_correct then ("Mixed Pattern (Final Correct)", sorted)
        else ("Mixed Pattern", sorted)

/-- Decidable "the history is already ordered by turn". -/
def sortedByTurn : List AnswerEntry → Bool
  | [] => true
  | [_] => true
  | a :: b :: rest => a.turn ≤ b.turn && sortedByTurn (b :: rest)

/-! Spec-side reformulation of the correctness classifier's "Improvement"
outcome, following the amended wording of claim C4 (per-agent endpoint
checks, Agent A before Agent B, then the half-ratio fallback). It is defined
independently of `determine_correctness_pattern` and compared with it. -/

/-- The sub-sequence of entries by one agent, in list order. -/
def agentSeq (tag : String) (h : List AnswerEntry) : List AnswerEntry :=
  h.filter (fun i => i.agent == tag)

/-- An agent sub-sequence with at least two entries whose first entry is
incorrect and whose last entry is correct. -/
def endpointImproves (l : List AnswerEntry) : Bool :=
  1 < l.length && l.head?.map (fun i => i.is_correct) == some false &&
    l.getLast?.map (fun i => i.is_correct) == some true

/-- An agent sub-sequence with at least two entries whose first entry is
correct and whose last entry is incorrect. -/
def endpointDegrades (l : List AnswerEntry) : Bool :=
  1 < l.length && l.head?.map (fun i => i.is_correct) == some true &&
    l.getLast?.map (fun i => i.is_correct) == some false

/-- A nonempty all-correct agent sub-sequence. -/
def allCorrectNonempty (l : List AnswerEntry) : Bool :=
  !l.isEmpty && l.all (fun i => i.is_correct)

/-- The turn-sorted second half has a strictly greater correct fraction than
the first half. -/
def halfGain (h : List AnswerEntry) : Bool :=
  let s := sortByTurn h
  let m := s.length / 2
  ratioGt (correctCount (s.drop m)) (s.drop m).length
    (correctCount (s.take m)) (s.take m).length

/-- When, per the amended claim C4, a not-all-correct and not-all-incorrect
history is classified "Improvement": Agent A's endpoint check fires as an
improvement; or neither of Agent A's endpoint checks fires and Agent B's
fires as an improvement; or no endpoint check fires, neither agent is
all-correct, and the sorted second half beats the first half. -/
def improvementSpec (h : List AnswerEntry) : Bool :=
  let a := agentSeq "Agent A" h
  let b := agentSeq "Agent B" h
  endpointImproves a ||
    (!endpointImproves a && !endpointDegrades a && endpointImproves b) ||
    (!endpointImproves a && !endpointDegrades a && !endpointImproves b &&
      !endpointDegrades b && !allCorrectNonempty a && !allCorrectNonempty b &&
      halfGain h)

/-! ## Evaluation accounting (`EvaluationManager.run_evaluation`) -/

/-- Per-mode slice of one question's result dict used by the aggregation. -/
structure ModeResult where
  answer : String
  correct : Bool
  total_tokens : Nat
deriving DecidableEq

/-- One question's result dict, as consumed by the batch-result loop. -/
structure QuestionResult where
  simulated : ModeResult
  dual : ModeResult
deriving DecidableEq

/-- The run summary's counting fields (accuracies are the correct counts
divided by `total_questions`, and carry no further information). -/
structure RunSummary where
  total_questions : Nat
  simulated_correct : Nat
  dual_correct : Nat
  simulated_tokens : Nat
  dual_tokens : Nat
deriving DecidableEq

/-- Slicing loop of `_create_batches`, with the item count as fuel (each
step consumes at least one item when `batch_size` is positive). -/
def createBatchesGo {Q : Type} (batch_size : Nat) :
    Nat → List Q → List (List Q)
  | 0, _ => []
  | _ + 1, [] => []
  | fuel + 1, x :: xs =>
    if batch_size == 0 then []
    else (x :: xs).take batch_size ::
      createBatchesGo batch_size fuel ((x :: xs).drop batch_size)

/-- Embeds `EvaluationManager._create_batches`: successive `batch_size`-sized
slices of the item list. -/
def create_batches {Q : Type} (items : List Q) (batch_size : Nat) :
    List (List Q) :=
  createBatchesGo batch_size items.length items

/-- The running totals of `run_evaluation`, built batch by batch. -/
structure EvalAcc where
  results : List QuestionResult
  total_simulated_correct : Nat
  total_dual_correct : Nat
  total_simulated_tokens : Nat
  total_dual_tokens : Nat
deriving DecidableEq

def emptyAcc : EvalAcc := ⟨[], 0, 0, 0, 0⟩

/-- One iteration of the batch-result loop: `None` (a question whose
processing raised) is skipped; otherwise the result is appended and the
running totals updated. -/
def accStep (acc : EvalAcc) : Option QuestionResult → EvalAcc
  | none => acc
  | some r =>
    { results := acc.results ++ [r]
      total_simulated_correct :=
        acc.total_simulated_correct + (if r.simulated.correct then 1 else 0)
      total_dual_correct :=
        acc.total_dual_correct + (if r.dual.correct then 1 else 0)
      total_simulated_tokens :=
        acc.total_simulated_tokens + r.simulated.total_tokens
      total_dual_tokens := acc.total_dual_tokens + r.dual.total_tokens }

/-- Sequential batch processing: each batch's questions are processed (the
per-question outcome function models `_process_question`, `None` meaning the
per-question exception handler fired), then folded into the totals. -/
def processBatches {Q : Type} (process : Q → Option QuestionResult) :
    List (List Q) → EvalAcc → EvalAcc
  | [], acc => acc
  | batch :: rest, acc =>
    processBatches process rest ((batch.map process).foldl accStep acc)

/-- Summary computed at the end of the run: `total_questions = len(results)`. -/
def summaryOf (acc : EvalAcc) : RunSummary :=
  ⟨acc.results.length, acc.total_simulated_correct, acc.total_dual_correct,
    acc.total_simulated_tokens, acc.total_dual_tokens⟩

/-- Embeds `EvaluationManager.run_evaluation` reduced to its accounting skeleton:
`questions = None` models `benchmark.get_questions` raising (a fatal
benchmark-loading error), an empty question set raises `ValueError` before
any accounting, and otherwise the questions are processed in batches of 5. -/
def run_evaluation {Q : Type} (questions : Option (List Q))
    (process : Q → Option QuestionResult) : Except String RunSummary :=
  match questions with
  | none => .error "benchmark loading failed"
  | some qs =>
    if qs.isEmpty then .error "No questions loaded from benchmark"
    else .ok (summaryOf (processBatches process (create_batches qs 5) emptyAcc))

/-- Case-insensitive equality of character lists. -/
def ciEqList : List Char → List Char → Bool
  | [], [] => true
  | m :: ms, c :: cs => m.toLower == c.toLower && ciEqList ms cs
  | _, _ => false

/-- The sorted first half has a strictly greater correct fraction than the
second half (the analyzer's "Deterioration" fallback). -/
def halfLoss (h : List AnswerEntry) : Bool :=
  let s := sortByTurn h
  let m := s.length / 2
  ratioGt (correctCount (s.take m)) (s.take m).length
    (correctCount (s.drop m)) (s.drop m).length

/-- Whether an agent's final recorded entry is correct. -/
def lastOfAgentCorrect (tag : String) (l : List AnswerEntry) : Bool :=
  match (l.filter (fun i => i.agent == tag)).getLast? with
  | some e => e.is_correct
  | none => false

/-- The analyzer's `final_correct` flag over the (sorted) history. -/
def finalCorrect (h : List AnswerEntry) : Bool :=
  lastOfAgentCorrect "Agent A" (sortByTurn h) ||
    lastOfAgentCorrect "Agent B" (sortByTurn h)

/-- A view of `determine_correctness_pattern` re-expressed through the named
per-agent endpoint checks; definitionally equal to the embedding
(see `dcp_eq_view`). -/
def dcpView (h : List AnswerEntry) : String × List AnswerEntry :=
  if h.isEmpty then ("Insufficient Data", h)
  else if h.all (fun i => i.is_correct) then ("Stable Correct", h)
  else if h.all (fun i => !i.is_correct) then ("Stable Incorrect", h)
  else if endpointImproves (agentSeq "Agent A" h) then ("Improvement", h)
  else if endpointDegrades (agentSeq "Agent A" h) then ("Deterioration", h)
  else if endpointImproves (agentSeq "Agent B" h) then ("Improvement", h)
  else if endpointDegrades (agentSeq "Agent B" h) then ("Deterioration", h)
  else if allCorrectNonempty (agentSeq "Agent A" h) ||
      allCorrectNonempty (agentSeq "Agent B" h) then
    ("Stable Correct (One Agent)", h)
  else if halfGain h then ("Improvement", sortByTurn h)
  else if halfLoss h then ("Deterioration", sortByTurn h)
  else if finalCorrect h then ("Mixed Pattern (Final Correct)", sortByTurn h)
  else ("Mixed Pattern", sortByTurn h)

/-- The `previous_final_answer` value held at the start of turn `t` of an
uninterrupted simulated run. -/
def simPrevAt (cfg : SimCfg) (t : Nat) : Option String :=
  if t = 0 then none else simAns cfg (t - 1)

/-- The `previous_final_answer` value held at the start of turn `t` of an
uninterrupted dual-agent run. -/
def dualPrevAt (cfg : DualCfg) (t : Nat) : Option String :=
  if t = 0 then none else dualAns cfg (t - 1)

/-- A message that is not a stored copy of either final-turn hint. -/
def hintClean (m : Message) : Prop :=
  m.role = "user" → m.content ≠ dualFinalHint ∧ m.content ≠ dualThoughtsHint

/-- A history containing no stored copy of either final-turn hint. -/
def hintFree (l : List Message) : Prop := ∀ m ∈ l, hintClean m

/-- The two-turn simulated run of the C3 counterexample: both turns answer
"B", but the repeat happens on the final turn, where the engine does not
check for convergence. -/
def c3cfg : SimCfg :=
  ⟨fun _ => "Final Answer: B", 2, "Agent A", "letter", "q", "pa", "pb"⟩

/-- Simulated witness run for C3: four configured turns, converging at
turn 1. -/
def c3wits : SimCfg :=
  ⟨fun _ => "Final Answer: B", 4, "Agent A", "letter", "q", "pa", "pb"⟩

/-- Dual-agent witness run for C3: five turns, converging at turn 1. -/
def c3witd : DualCfg :=
  mkDualCfg (fun _ => "Final Answer: C") 5 (some 0) "letter" "q"
    ⟨"system", none, "sa"⟩ ⟨"system", none, "sb"⟩

/-- The history used to refute claim C4: its unified first entry is correct,
yet the classifier reports "Improvement" because Agent B's sub-sequence
improves. -/
def c4ex : List AnswerEntry :=
  [⟨0, "Agent A", "x", true⟩, ⟨1, "Agent B", "y", false⟩,
   ⟨2, "Agent A", "x", true⟩, ⟨3, "Agent B", "x", true⟩]

/-- The out-of-turn-order history used to refute claim C5: Python's
`determine_correctness_pattern` sorts it in place, so a second call
classifies the now-sorted list differently. -/
def c5ex : List AnswerEntry :=
  [⟨1, "Agent A", "a", true⟩, ⟨0, "Agent A", "a", false⟩,
   ⟨2, "Agent A", "a", true⟩, ⟨3, "Agent A", "a", true⟩,
   ⟨4, "Agent A", "a", false⟩, ⟨5, "Agent A", "a", true⟩]

/-- The per-question outcome oracle of the C6 counterexample: question 2's
processing raises (outcome `None`), question 1 succeeds. -/
def c6proc : Nat → Option QuestionResult :=
  fun q => if q == 1 then some ⟨⟨"A", true, 3⟩, ⟨"B", false, 4⟩⟩ else none

/-- The concrete one-turn dual run of the C7 counterexample: even question
id, so Agent A is the designated final answerer and acts on the final turn. -/
def c7cfg : DualCfg :=
  mkDualCfg (fun _ => "ok") 1 (some 0) "letter" "q"
    ⟨"system", none, "sa"⟩ ⟨"system", none, "sb"⟩

end DebateUI

namespace DebateUI

/-- Helper: scanning messages none of which yields a truthy extracted answer
ends at the sentinel string. -/
theorem extractFinalFrom_eq_default (fmt : String) (l : List Message)
    (h : ∀ x ∈ l, pyTruthy (extract_answer x.content fmt) = false) :
    extractFinalFrom fmt l = "No final answer found." := by
  induction l with
  | nil => rfl
  | cons m rest ih =>
    have hm := h m (List.mem_cons_self m rest)
    have hrest : ∀ x ∈ rest, pyTruthy (extract_answer x.content fmt) = false :=
      fun x hx => h x (List.mem_cons_of_mem m hx)
    unfold extractFinalFrom
    cases he : extract_answer m.content fmt with
    | none => exact ih hrest
    | some a =>
      rw [he] at hm
      unfold pyTruthy at hm
      simp only [Bool.not_eq_true'] at hm
      simp only [hm, Bool.not_true, if_neg]
      exact ih hrest

end DebateUI

open DebateUI

/-- C1 counterexample: when every attempt of `call_api_async` fails with a
timeout, the operation does **not** raise — it returns the placeholder text
`"API Error: ..."` with zeroed token usage, so the claim that the error is
propagated and no placeholder is returned is false. -/
theorem C1_counterexample :
    call_api_async (fun _ => .error "Connection timed out") =
      .ok ("API Error: Connection timed out", zeroUsage) := rfl

/-- C1 (amended): when all retry attempts of `call_api_async` fail, and all
attempts of `call_api` fail (with the retried exceptions being transient),
each operation catches the final error and returns the placeholder text
`"API Error: <last message>"` with zero token usage to the caller, instead
of raising. -/
theorem C1_amended (attemptsA : Nat → Except String ApiResponse)
    (attemptsS : Nat → Except PyExc ApiResponse)
    (e0 e1 e2 : String) (f0 f1 f2 : PyExc)
    (h0 : attemptsA 0 = .error e0) (h1 : attemptsA 1 = .error e1)
    (h2 : attemptsA 2 = .error e2)
    (g0 : attemptsS 0 = .error f0) (g1 : attemptsS 1 = .error f1)
    (g2 : attemptsS 2 = .error f2)
    (t0 : f0.transient = true) (t1 : f1.transient = true) :
    call_api_async attemptsA = .ok ("API Error: " ++ e2, zeroUsage) ∧
      call_api attemptsS = .ok ("API Error: " ++ f2.msg, zeroUsage) := by
  unfold call_api_async call_api
  rw [h0, h1, h2, g0, g1, g2]
  simp [t0, t1]

/-- C1 witness: the amended theorem at a concrete all-failing attempt
oracle. -/
theorem C1_witness :
    call_api_async (fun _ => .error "timeout") =
      .ok ("API Error: " ++ "timeout", zeroUsage) ∧
      call_api (fun _ => .error ⟨true, "timeout"⟩) =
        .ok ("API Error: " ++ PyExc.msg ⟨true, "timeout"⟩, zeroUsage) :=
  C1_amended (fun _ => .error "timeout") (fun _ => .error ⟨true, "timeout"⟩)
    "timeout" "timeout" "timeout" ⟨true, "timeout"⟩ ⟨true, "timeout"⟩
    ⟨true, "timeout"⟩ rfl rfl rfl rfl rfl rfl rfl rfl

/-- C9: a history with exactly one entry per agent and equal answers is
classified "Complete Agreement" by `determine_agreement_pattern`, in either
order of the two entries — two entries in total suffice. -/
theorem C9_two_entry_agreement (e1 e2 : AnswerEntry)
    (hA : e1.agent = "Agent A") (hB : e2.agent = "Agent B")
    (heq : e1.answer = e2.answer) :
    determine_agreement_pattern [e1, e2] = "Complete Agreement" ∧
      determine_agreement_pattern [e2, e1] = "Complete Agreement" := by
  unfold determine_agreement_pattern
  simp [hA, hB, heq, List.filter]

/-- C9 witness: the two-entry agreement theorem at concrete entries. -/
theorem C9_witness :
    determine_agreement_pattern
        [⟨0, "Agent A", "X", true⟩, ⟨1, "Agent B", "X", false⟩] =
      "Complete Agreement" ∧
      determine_agreement_pattern
          [⟨1, "Agent B", "X", false⟩, ⟨0, "Agent A", "X", true⟩] =
        "Complete Agreement" :=
  C9_two_entry_agreement ⟨0, "Agent A", "X", true⟩ ⟨1, "Agent B", "X", false⟩
    rfl rfl rfl

/-- C10: `extract_final_answer` always yields a string; over a message list
with no truthy extractable answer it yields the sentinel
`"No final answer found."`, which `_process_question` then feeds to the
benchmark comparator like any other answer; and appending a message whose
content yields a truthy answer makes that (latest) answer the result, as the
reverse scan dictates. -/
theorem C10_extract_final_answer
    (messages : List Message) (m : Message) (fmt a gt : String)
    (evaluate : String → String → Bool)
    (hNone : ∀ x ∈ messages, pyTruthy (extract_answer x.content fmt) = false)
    (hSome : extract_answer m.content fmt = some a) (hA : a ≠ "") :
    extract_final_answer fmt messages = "No final answer found." ∧
      scoreModeAnswer evaluate fmt messages gt =
        evaluate "No final answer found." gt ∧
      extract_final_answer fmt (messages ++ [m]) = a := by
  have hdef : extract_final_answer fmt messages = "No final answer found." := by
    unfold extract_final_answer
    exact extractFinalFrom_eq_default fmt messages.reverse
      (fun x hx => hNone x (List.mem_reverse.mp hx))
  refine ⟨hdef, ?_, ?_⟩
  · unfold scoreModeAnswer
    rw [hdef]
  · unfold extract_final_answer
    rw [List.reverse_append]
    simp only [List.reverse_cons, List.reverse_nil, List.nil_append,
      List.singleton_append]
    unfold extractFinalFrom
    rw [hSome]
    simp [hA]

/-- C10 witness: the final-answer theorem at a concrete answerless transcript
extended by an answer-bearing message. -/
theorem C10_witness :
    extract_final_answer "letter" [⟨"user", none, "hi"⟩] =
      "No final answer found." ∧
      scoreModeAnswer (fun x y => x == y) "letter" [⟨"user", none, "hi"⟩] "B" =
        (("No final answer found." : String) == "B") ∧
      extract_final_answer "letter"
          ([⟨"user", none, "hi"⟩] ++ [⟨"assistant", some "Agent A", "Final Answer: B"⟩]) =
        "B" :=
  C10_extract_final_answer [⟨"user", none, "hi"⟩]
    ⟨"assistant", some "Agent A", "Final Answer: B"⟩ "letter" "B" "B"
    (fun x y => x == y) (by decide) (by decide) (by decide)

namespace DebateUI

/-- Helper: the simulated loop makes at most one gateway call per remaining
turn. -/
theorem simGo_calls_le (cfg : SimCfg) :
    ∀ rem turn messages result prev calls,
      (simGo cfg turn rem messages result prev calls).calls ≤ calls + rem := by
  intro rem
  induction rem with
  | zero => intro t m r p c; simp [simGo]
  | succ rem ih =>
    intro t m r p c
    simp only [simGo]
    split
    · split
      · simp
      · exact le_trans (ih _ _ _ _ _) (by omega)
    · exact le_trans (ih _ _ _ _ _) (by omega)

/-- Helper: the dual-agent loop makes at most one gateway call per remaining
turn. -/
theorem dualGo_calls_le (cfg : DualCfg) :
    ∀ rem turn msgsA msgsB result prev calls,
      (dualGo cfg turn rem msgsA msgsB result prev calls).calls ≤ calls + rem := by
  intro rem
  induction rem with
  | zero => intro t a b r p c; simp [dualGo]
  | succ rem ih =>
    intro t a b r p c
    simp only [dualGo]
    split
    · split
      · simp
      · exact le_trans (ih _ _ _ _ _ _) (by omega)
    · exact le_trans (ih _ _ _ _ _ _) (by omega)

/-- Helper: a full simulated run makes at most `num_turns` gateway calls. -/
theorem run_simulation_calls_le (cfg : SimCfg) :
    (run_simulation cfg).calls ≤ cfg.numTurns := by
  have h := simGo_calls_le cfg cfg.numTurns 0
    [simSystemMsg cfg, ⟨"user", none, cfg.prompt⟩] [⟨"user", none, cfg.prompt⟩]
    none 0
  simpa [run_simulation] using h

/-- Helper: a full dual-agent run makes at most `cfg.numTurns` calls. -/
theorem run_dual_agent_calls_le (cfg : DualCfg) :
    (run_dual_agent cfg).calls ≤ cfg.numTurns := by
  have h := dualGo_calls_le cfg cfg.numTurns 0 (dualInitA cfg) (dualInitB cfg)
    [⟨"user", none, cfg.prompt⟩] none 0
  simpa [run_dual_agent] using h

end DebateUI

set_option maxRecDepth 100000

/-- C2 counterexample: with a strategy configured for 6 turns and responses
that never converge, `run_simulation` makes 6 gateway calls — the simulated
protocol does **not** cap `num_turns` at 5, so the claim fails for it. -/
theorem C2_counterexample :
    (run_simulation ⟨fun _ => "", 6, "Agent A", "letter", "q", "pa", "pb"⟩).calls = 6 := by
  decide

/-- C2 (amended): only the dual-agent protocol caps the turn count — for any
strategy `num_turns`, `run_dual_agent` (whose loop bound is
`min(num_turns, 5)`) makes at most 5 gateway calls, while `run_simulation`
makes up to the strategy's (uncapped) `num_turns` calls. -/
theorem C2_amended (oracle : List Message → String) (strategyTurns : Nat)
    (qid : Option Int) (fmt prompt : String) (sysA sysB : Message)
    (scfg : SimCfg) :
    (run_dual_agent (mkDualCfg oracle strategyTurns qid fmt prompt sysA sysB)).calls ≤ 5 ∧
      (run_simulation scfg).calls ≤ scfg.numTurns := by
  constructor
  · exact le_trans
      (run_dual_agent_calls_le (mkDualCfg oracle strategyTurns qid fmt prompt sysA sysB))
      (Nat.min_le_right strategyTurns 5)
  · exact run_simulation_calls_le scfg

namespace DebateUI

/-- Helper: the stable sort is the identity on a turn-ordered history. -/
theorem sortByTurn_eq_self : ∀ (l : List AnswerEntry),
    sortedByTurn l = true → sortByTurn l = l := by
  intro l
  induction l with
  | nil => intro _; rfl
  | cons a t ih =>
    intro hs
    cases t with
    | nil => rfl
    | cons b r =>
      unfold sortedByTurn at hs
      rw [Bool.and_eq_true] at hs
      have hab : a.turn ≤ b.turn := of_decide_eq_true hs.1
      have ht : sortedByTurn (b :: r) = true := hs.2
      show insertByTurn a (sortByTurn (b :: r)) = a :: b :: r
      rw [ih ht]
      unfold insertByTurn
      rw [if_neg (by omega : ¬ b.turn < a.turn)]

end DebateUI

/-- C5 counterexample: on an `answer_history` that is not ordered by turn,
`determine_correctness_pattern` mutates the list (sorts it in place) and a
second call on the same list returns a different classification
("Improvement" instead of "Mixed Pattern (Final Correct)"), so the function
is not a pure, idempotent function of its input. -/
theorem C5_counterexample :
    (determine_correctness_pattern c5ex).1 = "Mixed Pattern (Final Correct)" ∧
      (determine_correctness_pattern (determine_correctness_pattern c5ex).2).1 =
        "Improvement" ∧
      (determine_correctness_pattern c5ex).2 ≠ c5ex := by
  refine ⟨by decide, by decide, by decide⟩

/-- C5 (amended): `determine_agreement_pattern` never mutates its argument
(it is embedded as a pure function), and `determine_correctness_pattern` is
pure and idempotent on histories already ordered by turn: the list is left
unchanged, a repeated call yields the same classification, and a subsequent
`determine_agreement_pattern` call is unaffected; on out-of-order input a
second call may differ (see the counterexample). -/
theorem C5_amended (h : List AnswerEntry) (hs : sortedByTurn h = true) :
    (determine_correctness_pattern h).2 = h ∧
      (determine_correctness_pattern ((determine_correctness_pattern h).2)).1 =
        (determine_correctness_pattern h).1 ∧
      determine_agreement_pattern ((determine_correctness_pattern h).2) =
        determine_agreement_pattern h := by
  have hsort : sortByTurn h = h := sortByTurn_eq_self h hs
  have h2 : (determine_correctness_pattern h).2 = h := by
    unfold determine_correctness_pattern
    dsimp only
    rw [hsort]
    simp only [apply_ite Prod.snd, ite_self]
  exact ⟨h2, by rw [h2], by rw [h2]⟩

/-- C5 witness: the amended theorem at a concrete turn-ordered history. -/
theorem C5_witness :
    (determine_correctness_pattern
          [⟨0, "Agent A", "a", false⟩, ⟨1, "Agent B", "b", true⟩]).2 =
        [⟨0, "Agent A", "a", false⟩, ⟨1, "Agent B", "b", true⟩] ∧
      (determine_correctness_pattern
            (determine_correctness_pattern
                [⟨0, "Agent A", "a", false⟩, ⟨1, "Agent B", "b", true⟩]).2).1 =
        (determine_correctness_pattern
            [⟨0, "Agent A", "a", false⟩, ⟨1, "Agent B", "b", true⟩]).1 ∧
      determine_agreement_pattern
          (determine_correctness_pattern
              [⟨0, "Agent A", "a", false⟩, ⟨1, "Agent B", "b", true⟩]).2 =
        determine_agreement_pattern
          [⟨0, "Agent A", "a", false⟩, ⟨1, "Agent B", "b", true⟩] :=
  C5_amended [⟨0, "Agent A", "a", false⟩, ⟨1, "Agent B", "b", true⟩] (by decide)

namespace DebateUI

/-- The view is the classifier, definitionally. -/
theorem dcp_eq_view (h : List AnswerEntry) :
    determine_correctness_pattern h = dcpView h := rfl

end DebateUI

/-- C4 counterexample: on `c4ex` — not all-correct, not all-incorrect — the
first entry of the unified turn-ordered sequence is **correct**, so by the
claim "Improvement" must not be returned; yet `determine_correctness_pattern`
returns "Improvement" (it checks endpoints per agent, not unified). -/
theorem C4_counterexample :
    (determine_correctness_pattern c4ex).1 = "Improvement" ∧
      c4ex.head?.map (fun i => i.is_correct) = some true ∧
      c4ex.all (fun i => i.is_correct) = false ∧
      c4ex.all (fun i => !i.is_correct) = false := by
  refine ⟨by decide, by decide, by decide, by decide⟩

/-- C4 (amended): for histories that are not all-correct and not
all-incorrect, "Improvement" is returned exactly when the per-agent rule of
`improvementSpec` fires: Agent A's endpoints improve; or A's endpoint checks
are silent and Agent B's endpoints improve; or all endpoint checks are
silent, neither agent is all-correct, and the turn-sorted second half has a
strictly greater correct fraction than the first half. -/
theorem C4_amended (h : List AnswerEntry)
    (hc : h.all (fun i => i.is_correct) = false)
    (hi : h.all (fun i => !i.is_correct) = false) :
    ((determine_correctness_pattern h).1 = "Improvement") ↔
      improvementSpec h = true := by
  have hne : h.isEmpty = false := by
    cases h with
    | nil => simp at hc
    | cons a t => rfl
  rw [dcp_eq_view]
  unfold dcpView improvementSpec
  dsimp only
  simp only [hne, hc, hi, Bool.false_eq_true, if_false]
  by_cases g1 : endpointImproves (agentSeq "Agent A" h) = true
  · simp [g1]
  rw [if_neg g1]
  replace g1 : endpointImproves (agentSeq "Agent A" h) = false := by
    revert g1; cases endpointImproves (agentSeq "Agent A" h) <;> simp
  by_cases g2 : endpointDegrades (agentSeq "Agent A" h) = true
  · simp [g1, g2]
  rw [if_neg g2]
  replace g2 : endpointDegrades (agentSeq "Agent A" h) = false := by
    revert g2; cases endpointDegrades (agentSeq "Agent A" h) <;> simp
  by_cases g3 : endpointImproves (agentSeq "Agent B" h) = true
  · simp [g1, g2, g3]
  rw [if_neg g3]
  replace g3 : endpointImproves (agentSeq "Agent B" h) = false := by
    revert g3; cases endpointImproves (agentSeq "Agent B" h) <;> simp
  by_cases g4 : endpointDegrades (agentSeq "Agent B" h) = true
  · simp [g1, g2, g3, g4]
  rw [if_neg g4]
  replace g4 : endpointDegrades (agentSeq "Agent B" h) = false := by
    revert g4; cases endpointDegrades (agentSeq "Agent B" h) <;> simp
  by_cases g5 : (allCorrectNonempty (agentSeq "Agent A" h) ||
      allCorrectNonempty (agentSeq "Agent B" h)) = true
  · rw [if_pos g5]
    rw [Bool.or_eq_true] at g5
    rcases g5 with g5 | g5 <;> simp [g1, g2, g3, g4, g5]
  rw [if_neg g5]
  rw [Bool.or_eq_true, not_or] at g5
  obtain ⟨g5a, g5b⟩ := g5
  replace g5a : allCorrectNonempty (agentSeq "Agent A" h) = false := by
    revert g5a; cases allCorrectNonempty (agentSeq "Agent A" h) <;> simp
  replace g5b : allCorrectNonempty (agentSeq "Agent B" h) = false := by
    revert g5b; cases allCorrectNonempty (agentSeq "Agent B" h) <;> simp
  by_cases g6 : halfGain h = true
  · simp [g1, g2, g3, g4, g5a, g5b, g6]
  rw [if_neg g6]
  replace g6 : halfGain h = false := by
    revert g6; cases halfGain h <;> simp
  by_cases g7 : halfLoss h = true
  · simp [g1, g2, g3, g4, g5a, g5b, g6, g7]
  rw [if_neg g7]
  by_cases g8 : finalCorrect h = true
  · simp [g1, g2, g3, g4, g5a, g5b, g6, g8]
  rw [if_neg g8]
  simp [g1, g2, g3, g4, g5a, g5b, g6]

/-- C4 witness: the amended equivalence evaluated at the concrete history
`c4ex`, whose hypotheses hold. -/
theorem C4_witness :
    ((determine_correctness_pattern c4ex).1 = "Improvement") ↔
      improvementSpec c4ex = true :=
  C4_amended c4ex (by decide) (by decide)

namespace DebateUI

/-- Helper: with a positive batch size and enough fuel, concatenating the
batches gives back the item list. -/
theorem createBatchesGo_join {Q : Type} (n : Nat) (hn : 0 < n) :
    ∀ (fuel : Nat) (l : List Q), l.length ≤ fuel →
      (createBatchesGo n fuel l).flatten = l := by
  intro fuel
  induction fuel with
  | zero =>
    intro l hl
    have h0 : l = [] := List.length_eq_zero.mp (Nat.le_zero.mp hl)
    subst h0; rfl
  | succ f ih =>
    intro l hl
    cases l with
    | nil => rfl
    | cons x xs =>
      unfold createBatchesGo
      have hn' : (n == 0) = false := by
        simp only [beq_eq_false_iff_ne, ne_eq]
        omega
      simp only [hn', Bool.false_eq_true, if_false, List.flatten_cons]
      rw [ih ((x :: xs).drop n)
        (by simp only [List.length_drop, List.length_cons]
            simp only [List.length_cons] at hl
            omega)]
      exact List.take_append_drop n (x :: xs)

/-- Helper: the per-batch fold equals one fold over the concatenation. -/
theorem processBatches_eq {Q : Type} (process : Q → Option QuestionResult) :
    ∀ (batches : List (List Q)) (acc : EvalAcc),
      processBatches process batches acc =
        (batches.flatten.map process).foldl accStep acc := by
  intro batches
  induction batches with
  | nil => intro acc; rfl
  | cons b rest ih =>
    intro acc
    show processBatches process rest ((b.map process).foldl accStep acc) = _
    rw [ih, List.flatten_cons, List.map_append, List.foldl_append]

/-- Helper: the accounting fold keeps every non-`None` outcome and skips the
`None` ones. -/
theorem foldl_accStep :
    ∀ (os : List (Option QuestionResult)) (acc : EvalAcc),
      os.foldl accStep acc =
        ⟨acc.results ++ os.filterMap id,
         acc.total_simulated_correct +
           ((os.filterMap id).filter (fun r => r.simulated.correct)).length,
         acc.total_dual_correct +
           ((os.filterMap id).filter (fun r => r.dual.correct)).length,
         acc.total_simulated_tokens +
           ((os.filterMap id).map (fun r => r.simulated.total_tokens)).sum,
         acc.total_dual_tokens +
           ((os.filterMap id).map (fun r => r.dual.total_tokens)).sum⟩ := by
  intro os
  induction os with
  | nil => intro acc; cases acc; simp
  | cons o os ih =>
    intro acc
    cases o with
    | none =>
      rw [List.foldl_cons, ih]
      simp [accStep]
    | some r =>
      rw [List.foldl_cons, ih]
      cases acc
      cases hs : r.simulated.correct <;> cases hd : r.dual.correct <;>
        simp [accStep, hs, hd, List.filter_cons, List.append_assoc] <;> omega

end DebateUI

namespace DebateUI

end DebateUI

/-- C6 counterexample: in a 2-question run where question 2's processing
raises, the summary reports `total_questions = 1` — the failed question is
dropped from the totals, not counted as incorrect as the claim states. -/
theorem C6_counterexample :
    run_evaluation (some [1, 2]) c6proc = .ok ⟨1, 1, 0, 3, 4⟩ ∧
      ([1, 2] : List Nat).length = 2 := ⟨rfl, rfl⟩

/-- C6 (amended): a question whose processing raises is dropped from the
run summary entirely — `total_questions` and the correct counts range over
the successfully processed questions only (batching into fives does not
change this) — while a benchmark-loading failure or an empty question set
halts the run with an error before any accounting. -/
theorem C6_amended {Q : Type} (qs : List Q)
    (process : Q → Option QuestionResult) (hne : qs ≠ []) :
    run_evaluation (some qs) process =
      .ok ⟨(qs.filterMap process).length,
        ((qs.filterMap process).filter (fun r => r.simulated.correct)).length,
        ((qs.filterMap process).filter (fun r => r.dual.correct)).length,
        ((qs.filterMap process).map (fun r => r.simulated.total_tokens)).sum,
        ((qs.filterMap process).map (fun r => r.dual.total_tokens)).sum⟩ ∧
      run_evaluation (Q := Q) none process = .error "benchmark loading failed" ∧
      run_evaluation (some ([] : List Q)) process =
        .error "No questions loaded from benchmark" := by
  refine ⟨?_, rfl, rfl⟩
  unfold run_evaluation
  have he : qs.isEmpty = false := by
    cases qs with
    | nil => exact absurd rfl hne
    | cons a t => rfl
  simp only [he, Bool.false_eq_true, if_false]
  unfold create_batches
  rw [processBatches_eq, createBatchesGo_join 5 (by norm_num) qs.length qs le_rfl,
    foldl_accStep]
  unfold summaryOf emptyAcc
  simp [List.filterMap_map, Function.id_comp]

/-- C6 witness: the amended theorem at the concrete 2-question run. -/
theorem C6_witness :
    run_evaluation (some [1, 2]) c6proc =
      .ok ⟨(([1, 2] : List Nat).filterMap c6proc).length,
        ((([1, 2] : List Nat).filterMap c6proc).filter
          (fun r => r.simulated.correct)).length,
        ((([1, 2] : List Nat).filterMap c6proc).filter
          (fun r => r.dual.correct)).length,
        ((([1, 2] : List Nat).filterMap c6proc).map
          (fun r => r.simulated.total_tokens)).sum,
        ((([1, 2] : List Nat).filterMap c6proc).map
          (fun r => r.dual.total_tokens)).sum⟩ ∧
      run_evaluation (Q := Nat) none c6proc = .error "benchmark loading failed" ∧
      run_evaluation (some ([] : List Nat)) c6proc =
        .error "No questions loaded from benchmark" :=
  C6_amended [1, 2] c6proc (by decide)

namespace DebateUI

/-- Helper: strings with different first characters differ. -/
theorem strHeadNe (s t : String) (c d : Char) (hs : s.data.head? = some c)
    (ht : t.data.head? = some d) (hcd : c ≠ d) : s ≠ t := by
  intro he
  rw [he, ht] at hs
  exact hcd (Option.some.inj hs).symm

theorem hintFree_append (l : List Message) (m : Message) (hl : hintFree l)
    (hm : hintClean m) : hintFree (l ++ [m]) := by
  intro x hx
  rcases List.mem_append.mp hx with h | h
  · exact hl x h
  · rw [List.mem_singleton.mp h]; exact hm

theorem hintClean_assistant (a : Option String) (c : String) :
    hintClean ⟨"assistant", a, c⟩ := by
  intro hr
  have h : ("assistant" : String) = "user" := hr
  exact absurd h (by decide)

theorem hintClean_agentA (r : String) :
    hintClean ⟨"user", none, "Agent A: " ++ r⟩ := by
  intro _
  exact ⟨strHeadNe _ _ 'A' 'T' rfl rfl (by decide),
    strHeadNe _ _ 'A' 'T' rfl rfl (by decide)⟩

theorem hintClean_agentB (r : String) :
    hintClean ⟨"user", none, "Agent B: " ++ r⟩ := by
  intro _
  exact ⟨strHeadNe _ _ 'A' 'T' rfl rfl (by decide),
    strHeadNe _ _ 'A' 'T' rfl rfl (by decide)⟩

theorem hintClean_enhanced (p : String) :
    hintClean ⟨"user", none, dualEnhancedPrompt p⟩ := by
  intro _
  exact ⟨strHeadNe _ _ 'Y' 'T' rfl rfl (by decide),
    strHeadNe _ _ 'Y' 'T' rfl rfl (by decide)⟩

/-- Helper: net effect of Agent A's hint append/pop on its stored history. -/
theorem dualNetA (cfg : DualCfg) (a b : List Message) (t : Nat)
    (hpar : (t % 2 == 0) = true) :
    (if ((t == cfg.numTurns - 1) && (cfg.finalAgent == "Agent A")) = true
      then (dualRequest cfg a b t).dropLast else dualRequest cfg a b t) = a := by
  unfold dualRequest
  rw [if_pos hpar]
  by_cases hf : ((t == cfg.numTurns - 1) && (cfg.finalAgent == "Agent A")) = true
  · rw [if_pos hf, if_pos hf, List.dropLast_concat]
  · rw [if_neg hf, if_neg hf]

/-- Helper: net effect of Agent B's hint append/pop on its stored history. -/
theorem dualNetB (cfg : DualCfg) (a b : List Message) (t : Nat)
    (hpar : ¬((t % 2 == 0) = true)) :
    (if (t == cfg.numTurns - 1) = true
      then (dualRequest cfg a b t).dropLast else dualRequest cfg a b t) = b := by
  unfold dualRequest
  rw [if_neg hpar]
  by_cases hfin : (t == cfg.numTurns - 1) = true
  · rw [if_pos hfin]
    by_cases hfb : ((t == cfg.numTurns - 1) && (cfg.finalAgent == "Agent B")) = true
    · rw [if_pos hfb, List.dropLast_concat]
    · rw [if_neg hfb, if_pos hfin, List.dropLast_concat]
  · have hfin' : (t == cfg.numTurns - 1) = false := by
      revert hfin; cases t == cfg.numTurns - 1 <;> simp
    rw [if_neg hfin]
    simp only [hfin', Bool.false_and, Bool.false_eq_true, if_false]

/-- Helper: the dual-agent loop never leaves a final-turn hint in either
stored history — the hint is popped right after the gateway call in every
case. -/
theorem dualGo_hintFree (cfg : DualCfg) :
    ∀ rem turn msgsA msgsB result prev calls,
      hintFree msgsA → hintFree msgsB →
      hintFree (dualGo cfg turn rem msgsA msgsB result prev calls).messagesA ∧
        hintFree (dualGo cfg turn rem msgsA msgsB result prev calls).messagesB := by
  intro rem
  induction rem with
  | zero =>
    intro t a b r p c ha hb
    exact ⟨ha, hb⟩
  | succ rem ih =>
    intro t a b r p c ha hb
    by_cases hpar : (t % 2 == 0) = true
    · simp only [dualGo, if_pos hpar, dualNetA cfg a b t hpar]
      have ha' := hintFree_append a ⟨"assistant", none, dualRespOf cfg a b t⟩ ha
        (hintClean_assistant none _)
      have hb' := hintFree_append b
        ⟨"user", none, "Agent A: " ++ dualRespOf cfg a b t⟩ hb
        (hintClean_agentA _)
      split
      · split
        · exact ⟨ha', hb'⟩
        · exact ih _ _ _ _ _ _ ha' hb'
      · exact ih _ _ _ _ _ _ ha' hb'
    · simp only [dualGo, if_neg hpar, dualNetB cfg a b t hpar]
      have ha' := hintFree_append a
        ⟨"user", none, "Agent B: " ++ dualRespOf cfg a b t⟩ ha
        (hintClean_agentB _)
      have hb' := hintFree_append b ⟨"assistant", none, dualRespOf cfg a b t⟩ hb
        (hintClean_assistant none _)
      split
      · split
        · exact ⟨ha', hb'⟩
        · exact ih _ _ _ _ _ _ ha' hb'
      · exact ih _ _ _ _ _ _ ha' hb'

end DebateUI

/-- C7 counterexample: in a one-turn dual run whose acting agent is the
designated final agent, the stored history `messages_a` does **not** retain
the "conclude with 'Final Answer:'" hint — it was popped after the gateway
call, contrary to the claim. -/
theorem C7_counterexample :
    c7cfg.finalAgent = "Agent A" ∧ c7cfg.numTurns = 1 ∧
      dualFinalHint ∉ (run_dual_agent c7cfg).messagesA.map Message.content := by
  refine ⟨rfl, rfl, by decide⟩

/-- C7 (amended): the final-turn hint is popped after the gateway call in
every case — whether or not the acting agent is the designated final agent —
so no user-role message equal to either hint is ever retained in the stored
histories of a dual-agent run (given the strategy's system prompts are
system-role messages). -/
theorem C7_amended (cfg : DualCfg) (hsa : cfg.sysA.role = "system")
    (hsb : cfg.sysB.role = "system") :
    ∀ m, (m ∈ (run_dual_agent cfg).messagesA ∨
        m ∈ (run_dual_agent cfg).messagesB) →
      m.role = "user" →
        m.content ≠ dualFinalHint ∧ m.content ≠ dualThoughtsHint := by
  have hinit : hintFree (dualInitA cfg) ∧ hintFree (dualInitB cfg) := by
    constructor
    · intro m hm
      rcases List.mem_cons.mp hm with h | h
      · subst h
        intro hr
        rw [hsa] at hr
        exact absurd hr (by decide)
      · rw [List.mem_singleton.mp h]
        exact hintClean_enhanced cfg.prompt
    · intro m hm
      rcases List.mem_cons.mp hm with h | h
      · subst h
        intro hr
        rw [hsb] at hr
        exact absurd hr (by decide)
      · rw [List.mem_singleton.mp h]
        exact hintClean_enhanced cfg.prompt
  have h := dualGo_hintFree cfg cfg.numTurns 0 (dualInitA cfg) (dualInitB cfg)
    [⟨"user", none, cfg.prompt⟩] none 0 hinit.1 hinit.2
  intro m hm hr
  rcases hm with hm | hm
  · exact h.1 m hm hr
  · exact h.2 m hm hr

/-- C7 witness: the amended theorem applied at the one-turn run of `c7cfg`
and its stored enhanced user prompt. -/
theorem C7_witness :
    (⟨"user", none, dualEnhancedPrompt "q"⟩ : Message).content ≠ dualFinalHint ∧
      (⟨"user", none, dualEnhancedPrompt "q"⟩ : Message).content ≠ dualThoughtsHint :=
  C7_amended c7cfg rfl rfl ⟨"user", none, dualEnhancedPrompt "q"⟩
    (Or.inl (by decide)) rfl

namespace DebateUI

set_option maxHeartbeats 2000000 in
/-- Helper: if some non-final turn `k ≥ 1` repeats the previous turn's
truthy answer, the simulated loop stops early and ends on the convergence
notice. -/
theorem simGo_converges (cfg : SimCfg) :
    ∀ rem turn result calls,
      turn + rem = cfg.numTurns →
      (∃ k, turn ≤ k ∧ 1 ≤ k ∧ k + 1 < cfg.numTurns ∧
        pyTruthy (simAns cfg k) = true ∧ simAns cfg k = simAns cfg (k - 1)) →
      (simGo cfg turn rem (simHist cfg turn) result (simPrevAt cfg turn)
          calls).calls < calls + rem ∧
        ∃ a, (simGo cfg turn rem (simHist cfg turn) result (simPrevAt cfg turn)
          calls).result.getLast? = some (simConvergenceMsg a) := by
  intro rem
  induction rem with
  | zero =>
    intro t result calls hsum hex
    obtain ⟨k, htk, hk1, hklt, _, _⟩ := hex
    omega
  | succ rem ih =>
    intro t result calls hsum hex
    obtain ⟨k, htk, hk1, hklt, htr, heq⟩ := hex
    have htlt : t < cfg.numTurns - 1 := by omega
    simp only [simGo]
    rw [if_pos htlt]
    split
    · refine ⟨?_, ⟨_, List.getLast?_concat _⟩⟩
      show calls + 1 < calls + (rem + 1)
      omega
    · rename_i hconv
      have hkt : t + 1 ≤ k := by
        rcases Nat.eq_or_lt_of_le htk with hkeq | hlt
        · exfalso
          subst hkeq
          have hprev : simPrevAt cfg t = simAns cfg (t - 1) := by
            unfold simPrevAt
            rw [if_neg (by omega : ¬ t = 0)]
          have hcond : (pyTruthy (simAns cfg t) && pyTruthy (simPrevAt cfg t) &&
              (simAns cfg t == simPrevAt cfg t)) = true := by
            rw [hprev, ← heq]
            simp [htr]
          exact hconv hcond
        · omega
      have hmsg : simHist cfg (t + 1) =
          simHist cfg t ++ [⟨"assistant", none, simProcOf cfg (simHist cfg t) t⟩] := rfl
      have hprev1 : simPrevAt cfg (t + 1) =
          extract_answer (simTag (simRole t) (simProcOf cfg (simHist cfg t) t)).2 cfg.fmt := rfl
      rw [← hmsg, ← hprev1]
      have hih := ih (t + 1) (result ++
          [⟨"assistant", some (simTag (simRole t) (simProcOf cfg (simHist cfg t) t)).1,
            (simTag (simRole t) (simProcOf cfg (simHist cfg t) t)).2⟩]) (calls + 1)
        (by omega) ⟨k, hkt, hk1, hklt, htr, heq⟩
      exact ⟨lt_of_lt_of_le hih.1 (by omega), hih.2⟩

set_option maxHeartbeats 2000000 in
/-- Helper: the dual-agent analogue of `simGo_converges`. -/
theorem dualGo_converges (cfg : DualCfg) :
    ∀ rem turn result calls,
      turn + rem = cfg.numTurns →
      (∃ k, turn ≤ k ∧ 1 ≤ k ∧ k + 1 < cfg.numTurns ∧
        pyTruthy (dualAns cfg k) = true ∧ dualAns cfg k = dualAns cfg (k - 1)) →
      (dualGo cfg turn rem (dualHists cfg turn).1 (dualHists cfg turn).2 result
          (dualPrevAt cfg turn) calls).calls < calls + rem ∧
        ∃ a, (dualGo cfg turn rem (dualHists cfg turn).1 (dualHists cfg turn).2
          result (dualPrevAt cfg turn) calls).result.getLast? =
            some (dualConvergenceMsg a) := by
  intro rem
  induction rem with
  | zero =>
    intro t result calls hsum hex
    obtain ⟨k, htk, hk1, hklt, _, _⟩ := hex
    omega
  | succ rem ih =>
    intro t result calls hsum hex
    obtain ⟨k, htk, hk1, hklt, htr, heq⟩ := hex
    have htlt : t < cfg.numTurns - 1 := by omega
    by_cases hpar : (t % 2 == 0) = true
    · have hstep1 : (dualHists cfg (t + 1)).1 =
          (dualHists cfg t).1 ++ [⟨"assistant", none,
            dualRespOf cfg (dualHists cfg t).1 (dualHists cfg t).2 t⟩] := by
        simp only [dualHists]
        rw [if_pos hpar]
      have hstep2 : (dualHists cfg (t + 1)).2 =
          (dualHists cfg t).2 ++ [⟨"user", none, "Agent A: " ++
            dualRespOf cfg (dualHists cfg t).1 (dualHists cfg t).2 t⟩] := by
        simp only [dualHists]
        rw [if_pos hpar]
      simp only [dualGo, if_pos hpar,
        dualNetA cfg (dualHists cfg t).1 (dualHists cfg t).2 t hpar]
      rw [if_pos htlt]
      split
      · refine ⟨?_, ⟨_, List.getLast?_concat _⟩⟩
        show calls + 1 < calls + (rem + 1)
        omega
      · rename_i hconv
        have hkt : t + 1 ≤ k := by
          rcases Nat.eq_or_lt_of_le htk with hkeq | hlt
          · exfalso
            subst hkeq
            have hprev : dualPrevAt cfg t = dualAns cfg (t - 1) := by
              unfold dualPrevAt
              rw [if_neg (by omega : ¬ t = 0)]
            have hcond : (pyTruthy (dualAns cfg t) && pyTruthy (dualPrevAt cfg t) &&
                (dualAns cfg t == dualPrevAt cfg t)) = true := by
              rw [hprev, ← heq]
              simp [htr]
            exact hconv hcond
          · omega
        have hprevd : dualPrevAt cfg (t + 1) =
            extract_answer (dualRespOf cfg (dualHists cfg t).1 (dualHists cfg t).2 t)
              cfg.fmt := rfl
        rw [← hstep1, ← hstep2, ← hprevd]
        have hih := ih (t + 1) (result ++ [⟨"assistant", some "Agent A",
            dualRespOf cfg (dualHists cfg t).1 (dualHists cfg t).2 t⟩]) (calls + 1)
          (by omega) ⟨k, hkt, hk1, hklt, htr, heq⟩
        exact ⟨lt_of_lt_of_le hih.1 (by omega), hih.2⟩
    · have hstep1 : (dualHists cfg (t + 1)).1 =
          (dualHists cfg t).1 ++ [⟨"user", none, "Agent B: " ++
            dualRespOf cfg (dualHists cfg t).1 (dualHists cfg t).2 t⟩] := by
        simp only [dualHists]
        rw [if_neg hpar]
      have hstep2 : (dualHists cfg (t + 1)).2 =
          (dualHists cfg t).2 ++ [⟨"assistant", none,
            dualRespOf cfg (dualHists cfg t).1 (dualHists cfg t).2 t⟩] := by
        simp only [dualHists]
        rw [if_neg hpar]
      simp only [dualGo, if_neg hpar,
        dualNetB cfg (dualHists cfg t).1 (dualHists cfg t).2 t hpar]
      rw [if_pos htlt]
      split
      · refine ⟨?_, ⟨_, List.getLast?_concat _⟩⟩
        show calls + 1 < calls + (rem + 1)
        omega
      · rename_i hconv
        have hkt : t + 1 ≤ k := by
          rcases Nat.eq_or_lt_of_le htk with hkeq | hlt
          · exfalso
            subst hkeq
            have hprev : dualPrevAt cfg t = dualAns cfg (t - 1) := by
              unfold dualPrevAt
              rw [if_neg (by omega : ¬ t = 0)]
            have hcond : (pyTruthy (dualAns cfg t) && pyTruthy (dualPrevAt cfg t) &&
                (dualAns cfg t == dualPrevAt cfg t)) = true := by
              rw [hprev, ← heq]
              simp [htr]
            exact hconv hcond
          · omega
        have hprevd : dualPrevAt cfg (t + 1) =
            extract_answer (dualRespOf cfg (dualHists cfg t).1 (dualHists cfg t).2 t)
              cfg.fmt := rfl
        rw [← hstep1, ← hstep2, ← hprevd]
        have hih := ih (t + 1) (result ++ [⟨"assistant", some "Agent B",
            dualRespOf cfg (dualHists cfg t).1 (dualHists cfg t).2 t⟩]) (calls + 1)
          (by omega) ⟨k, hkt, hk1, hklt, htr, heq⟩
        exact ⟨lt_of_lt_of_le hih.1 (by omega), hih.2⟩

end DebateUI

namespace DebateUI

end DebateUI

/-- C3 counterexample: in a two-turn simulated dialogue both turns yield the
identical truthy answer "B", yet the engine runs all `num_turns` turns and
the transcript ends with an assistant message, not a convergence notice —
the convergence check is skipped when the repeat lands on the final turn. -/
theorem C3_counterexample :
    pyTruthy (simAns c3cfg 1) = true ∧ simAns c3cfg 1 = simAns c3cfg 0 ∧
      (run_simulation c3cfg).calls = c3cfg.numTurns ∧
      ((run_simulation c3cfg).result.getLast?).map Message.role =
        some "assistant" := by
  refine ⟨by decide, by decide, by decide, by decide⟩

/-- C3 (amended): whenever two consecutive turns `k-1, k` with `k` **not
the final turn** (`k + 1 < num_turns`) yield identical truthy extracted
answers, each dialogue engine stops before `num_turns` gateway calls and
the returned transcript's last entry is the system convergence notice. -/
theorem C3_amended (scfg : SimCfg) (dcfg : DualCfg)
    (hs : ∃ k, 1 ≤ k ∧ k + 1 < scfg.numTurns ∧
      pyTruthy (simAns scfg k) = true ∧ simAns scfg k = simAns scfg (k - 1))
    (hd : ∃ k, 1 ≤ k ∧ k + 1 < dcfg.numTurns ∧
      pyTruthy (dualAns dcfg k) = true ∧ dualAns dcfg k = dualAns dcfg (k - 1)) :
    ((run_simulation scfg).calls < scfg.numTurns ∧
      ∃ a, (run_simulation scfg).result.getLast? = some (simConvergenceMsg a)) ∧
    ((run_dual_agent dcfg).calls < dcfg.numTurns ∧
      ∃ a, (run_dual_agent dcfg).result.getLast? = some (dualConvergenceMsg a)) := by
  constructor
  · obtain ⟨k, hk1, hklt, htr, heq⟩ := hs
    have h := simGo_converges scfg scfg.numTurns 0 [⟨"user", none, scfg.prompt⟩] 0
      (by omega) ⟨k, by omega, hk1, hklt, htr, heq⟩
    have hrun : run_simulation scfg =
        simGo scfg 0 scfg.numTurns (simHist scfg 0) [⟨"user", none, scfg.prompt⟩]
          (simPrevAt scfg 0) 0 := rfl
    rw [hrun]
    exact ⟨by have h1 := h.1; omega, h.2⟩
  · obtain ⟨k, hk1, hklt, htr, heq⟩ := hd
    have h := dualGo_converges dcfg dcfg.numTurns 0 [⟨"user", none, dcfg.prompt⟩] 0
      (by omega) ⟨k, by omega, hk1, hklt, htr, heq⟩
    have hrun : run_dual_agent dcfg =
        dualGo dcfg 0 dcfg.numTurns (dualHists dcfg 0).1 (dualHists dcfg 0).2
          [⟨"user", none, dcfg.prompt⟩] (dualPrevAt dcfg 0) 0 := rfl
    rw [hrun]
    exact ⟨by have h1 := h.1; omega, h.2⟩

/-- C3 witness: the amended theorem at two concrete converging runs. -/
theorem C3_witness :
    ((run_simulation c3wits).calls < c3wits.numTurns ∧
      ∃ a, (run_simulation c3wits).result.getLast? = some (simConvergenceMsg a)) ∧
    ((run_dual_agent c3witd).calls < c3witd.numTurns ∧
      ∃ a, (run_dual_agent c3witd).result.getLast? = some (dualConvergenceMsg a)) :=
  C3_amended c3wits c3witd
    ⟨1, by decide, by decide, by decide, by decide⟩
    ⟨1, by decide, by decide, by decide, by decide⟩

namespace DebateUI

/-- Helper: a case-variant of the marker CI-matches the front of any
extension of itself. -/
theorem ciEqList_ciIsPrefixOf :
    ∀ (m s t : List Char), ciEqList m s = true →
      ciIsPrefixOf m (s ++ t) = true := by
  intro m
  induction m with
  | nil => intro s t _; rfl
  | cons x ms ih =>
    intro s t hs
    cases s with
    | nil => exact absurd hs (by simp [ciEqList])
    | cons c cs =>
      unfold ciEqList at hs
      rw [Bool.and_eq_true] at hs
      show (x.toLower == c.toLower && ciIsPrefixOf ms (cs ++ t)) = true
      rw [Bool.and_eq_true]
      exact ⟨hs.1, ih cs t hs.2⟩

/-- Helper: CI-equal lists have equal lengths. -/
theorem ciEqList_length :
    ∀ (m s : List Char), ciEqList m s = true → m.length = s.length := by
  intro m
  induction m with
  | nil =>
    intro s hs
    cases s with
    | nil => rfl
    | cons c cs => exact absurd hs (by simp [ciEqList])
  | cons x ms ih =>
    intro s hs
    cases s with
    | nil => exact absurd hs (by simp [ciEqList])
    | cons c cs =>
      unfold ciEqList at hs
      rw [Bool.and_eq_true] at hs
      simp only [List.length_cons, ih cs hs.2]

/-- Unfolding equation of `scanMarker` on a nonempty text. -/
theorem scanMarker_cons (marker : List Char) (c : Char) (cs : List Char) :
    scanMarker marker (c :: cs) =
      if ciIsPrefixOf marker (c :: cs) = true then
        match tailCapture ((c :: cs).drop marker.length) with
        | some g => some g
        | none => scanMarker marker cs
      else scanMarker marker cs := rfl

/-- Helper: the scan can skip a prefix containing no marker occurrence. -/
theorem scanMarker_skip (marker : List Char) :
    ∀ (pre rest : List Char),
      (∀ i, i < pre.length → ciIsPrefixOf marker ((pre ++ rest).drop i) = false) →
      scanMarker marker (pre ++ rest) = scanMarker marker rest := by
  intro pre
  induction pre with
  | nil => intro rest _; rfl
  | cons p ps ih =>
    intro rest h
    have h0 : ciIsPrefixOf marker (p :: (ps ++ rest)) = false := by
      have := h 0 (by simp)
      simpa using this
    show scanMarker marker (p :: (ps ++ rest)) = scanMarker marker rest
    rw [scanMarker_cons, h0]
    simp only [Bool.false_eq_true, if_false]
    exact ih rest (fun i hi => by
      have := h (i + 1) (by simp; omega)
      simpa using this)

/-- Helper: a text with no marker occurrence scans to `none`. -/
theorem scanMarker_none (marker : List Char) :
    ∀ (text : List Char),
      (∀ i, i < text.length → ciIsPrefixOf marker (text.drop i) = false) →
      scanMarker marker text = none := by
  intro text
  induction text with
  | nil => intro _; rfl
  | cons c cs ih =>
    intro h
    have h0 : ciIsPrefixOf marker (c :: cs) = false := by
      have := h 0 (by simp)
      simpa using this
    rw [scanMarker_cons, h0]
    simp only [Bool.false_eq_true, if_false]
    exact ih (fun i hi => by
      have := h (i + 1) (by simp; omega)
      simpa using this)

/-- Helper: `dropWhile` consumes a fully-satisfying prefix. -/
theorem dropWhileAppendAll (p : Char → Bool) :
    ∀ (xs ys : List Char), (∀ x ∈ xs, p x = true) →
      (xs ++ ys).dropWhile p = ys.dropWhile p := by
  intro xs
  induction xs with
  | nil => intro ys _; rfl
  | cons x xs' ih =>
    intro ys h
    show (x :: (xs' ++ ys)).dropWhile p = ys.dropWhile p
    rw [List.dropWhile_cons, if_pos (h x (List.mem_cons_self x xs'))]
    exact ih ys (fun y hy => h y (List.mem_cons_of_mem x hy))

/-- Helper: `takeWhile` keeps a fully-satisfying prefix. -/
theorem takeWhileAppendAll (p : Char → Bool) :
    ∀ (xs ys : List Char), (∀ x ∈ xs, p x = true) →
      (xs ++ ys).takeWhile p = xs ++ ys.takeWhile p := by
  intro xs
  induction xs with
  | nil => intro ys _; rfl
  | cons x xs' ih =>
    intro ys h
    show (x :: (xs' ++ ys)).takeWhile p = x :: (xs' ++ ys.takeWhile p)
    rw [List.takeWhile_cons, if_pos (h x (List.mem_cons_self x xs'))]
    rw [ih ys (fun y hy => h y (List.mem_cons_of_mem x hy))]

/-- Helper: `dropWhile` cannot pass a non-satisfying character. -/
theorem dropWhileStop (p : Char → Bool) (c : Char) (hc : p c = false) :
    ∀ (v w : List Char),
      (v ++ c :: w).dropWhile p = v.dropWhile p ++ (c :: w) := by
  intro v
  induction v with
  | nil =>
    intro w
    show (c :: w).dropWhile p = (c :: w)
    rw [List.dropWhile_cons, if_neg (by simp [hc])]
  | cons x v' ih =>
    intro w
    show (x :: (v' ++ c :: w)).dropWhile p = (x :: v').dropWhile p ++ (c :: w)
    rw [List.dropWhile_cons, List.dropWhile_cons]
    by_cases hx : p x = true
    · rw [if_pos hx, if_pos hx, ih]
    · rw [if_neg hx, if_neg hx]
      rfl

/-- Helper: ASCII letters are not whitespace. -/
theorem isAlpha_not_space (c : Char) (hc : c.isAlpha = true) :
    isPySpace c = false := by
  by_contra h
  rw [Bool.not_eq_false] at h
  unfold isPySpace at h
  simp only [Bool.or_eq_true, beq_iff_eq] at h
  rcases h with ((((h | h) | h) | h) | h) | h <;> subst h <;>
    exact absurd hc (by decide)

/-- Helper: ASCII letters are not asterisks. -/
theorem isAlpha_ne_star (c : Char) (hc : c.isAlpha = true) :
    (c == '*') = false := by
  by_contra h
  rw [Bool.not_eq_false, beq_iff_eq] at h
  subst h
  exact absurd hc (by decide)

end DebateUI

namespace DebateUI

/-- Helper: ASCII letters are not newlines. -/
theorem isAlpha_ne_newline (c : Char) (hc : c.isAlpha = true) :
    (c == '\n') = false := by
  by_contra h
  rw [Bool.not_eq_false, beq_iff_eq] at h
  subst h
  exact absurd hc (by decide)

/-- Helper: the `[^\n]+` capture keeps a star-prefixed letter group. -/
theorem takeWhile_star_alpha (stars : List Char) (c : Char) (rest : List Char)
    (hstars : ∀ x ∈ stars, x = '*') (hc : c.isAlpha = true) :
    (stars ++ c :: rest).takeWhile (fun d => !(d == '\n')) =
      stars ++ c :: rest.takeWhile (fun d => !(d == '\n')) := by
  rw [takeWhileAppendAll _ stars _ (fun x hx => by rw [hstars x hx]; rfl)]
  congr 1
  rw [List.takeWhile_cons, if_pos (by simp [isAlpha_ne_newline c hc])]

/-- Helper: `\s*([^\n]+)` matched against whitespace, then optional
emphasis stars, then a letter, captures from the stars onward up to the
next newline. -/
theorem tailCapture_shape (ws stars : List Char) (c : Char) (rest : List Char)
    (hws : ∀ x ∈ ws, isPySpace x = true) (hstars : ∀ x ∈ stars, x = '*')
    (hc : c.isAlpha = true) :
    tailCapture (ws ++ (stars ++ c :: rest)) =
      some (stars ++ c :: rest.takeWhile (fun d => !(d == '\n'))) := by
  cases stars with
  | nil =>
    have hdrop : (ws ++ ([] ++ c :: rest)).dropWhile isPySpace = c :: rest := by
      rw [dropWhileAppendAll _ ws _ hws]
      show (c :: rest).dropWhile isPySpace = c :: rest
      rw [List.dropWhile_cons, if_neg (by simp [isAlpha_not_space c hc])]
    unfold tailCapture
    rw [hdrop]
    have := takeWhile_star_alpha [] c rest (by simp) hc
    simpa using this
  | cons s stars' =>
    have hs : isPySpace s = false := by
      rw [hstars s (List.mem_cons_self s stars')]
      decide
    have hdrop : (ws ++ ((s :: stars') ++ c :: rest)).dropWhile isPySpace =
        s :: (stars' ++ c :: rest) := by
      rw [dropWhileAppendAll _ ws _ hws]
      show (s :: (stars' ++ c :: rest)).dropWhile isPySpace = _
      rw [List.dropWhile_cons, if_neg (by simp [hs])]
    unfold tailCapture
    rw [hdrop]
    have := takeWhile_star_alpha (s :: stars') c rest hstars hc
    simpa using this

/-- Helper: `str.strip()` keeps the front of a group beginning with
non-whitespace characters, stripping only a trailing tail. -/
theorem pyStripL_keep (xs : List Char) (c : Char) (t : List Char)
    (hxs : ∀ x ∈ xs, isPySpace x = false) (hc : isPySpace c = false) :
    pyStripL (xs ++ c :: t) =
      xs ++ c :: (t.reverse.dropWhile isPySpace).reverse := by
  unfold pyStripL
  have h1 : (xs ++ c :: t).dropWhile isPySpace = xs ++ c :: t := by
    cases xs with
    | nil =>
      show (c :: t).dropWhile isPySpace = c :: t
      rw [List.dropWhile_cons, if_neg (by simp [hc])]
    | cons x xs' =>
      show (x :: (xs' ++ c :: t)).dropWhile isPySpace = x :: (xs' ++ c :: t)
      rw [List.dropWhile_cons,
        if_neg (by simp [hxs x (List.mem_cons_self x xs')])]
  rw [h1]
  have h2 : (xs ++ c :: t).reverse = t.reverse ++ c :: xs.reverse := by
    simp [List.reverse_append]
  rw [h2, dropWhileStop isPySpace c hc]
  simp [List.reverse_append]

/-- Helper: the letter narrowing of a star-prefixed letter group. -/
theorem letterNarrow_shape (stars : List Char) (c : Char) (t2 : List Char)
    (hstars : ∀ x ∈ stars, x = '*') (hlen : stars.length ≤ 2)
    (hc : c.isAlpha = true) :
    letterNarrow (stars ++ c :: t2) = some (String.mk [c.toUpper]) := by
  have hcount : starCount (stars ++ c :: t2) = stars.length := by
    unfold starCount
    rw [takeWhileAppendAll _ stars _ (fun x hx => by rw [hstars x hx]; rfl)]
    rw [List.takeWhile_cons, if_neg (by simp [isAlpha_ne_star c hc])]
    simp
  unfold letterNarrow
  rw [hcount, if_pos hlen, List.drop_left]
  simp [hc]

/-- Helper: the leftmost-match capture of the whole marker regex when the
first marker occurrence starts right after `pre` and is followed by
whitespace, up to two stars, and a letter. -/
theorem scanMarker_capture (marker : List Char) (pre lit ws stars rest : List Char)
    (c : Char) (hm : marker ≠ []) (hlit : ciEqList marker lit = true)
    (hpre : ∀ i, i < pre.length →
      ciIsPrefixOf marker ((pre ++ (lit ++ (ws ++ (stars ++ c :: rest)))).drop i) =
        false)
    (hws : ∀ x ∈ ws, isPySpace x = true) (hstars : ∀ x ∈ stars, x = '*')
    (hc : c.isAlpha = true) :
    scanMarker marker (pre ++ (lit ++ (ws ++ (stars ++ c :: rest)))) =
      some (stars ++ c :: rest.takeWhile (fun d => !(d == '\n'))) := by
  rw [scanMarker_skip marker pre _ hpre]
  cases lit with
  | nil =>
    cases marker with
    | nil => exact absurd rfl hm
    | cons m ms => exact absurd hlit (by simp [ciEqList])
  | cons l0 lit' =>
    show scanMarker marker (l0 :: (lit' ++ (ws ++ (stars ++ c :: rest)))) = _
    rw [scanMarker_cons]
    have hpref : ciIsPrefixOf marker
        (l0 :: (lit' ++ (ws ++ (stars ++ c :: rest)))) = true := by
      have := ciEqList_ciIsPrefixOf marker (l0 :: lit')
        (ws ++ (stars ++ c :: rest)) hlit
      simpa using this
    rw [hpref, if_pos rfl]
    have hdropl : (l0 :: (lit' ++ (ws ++ (stars ++ c :: rest)))).drop
        marker.length = ws ++ (stars ++ c :: rest) := by
      rw [ciEqList_length marker (l0 :: lit') hlit]
      exact List.drop_left (l0 :: lit') _
    rw [hdropl, tailCapture_shape ws stars c rest hws hstars hc]

/-- Evaluation rule: `(String.mk l).data = l`. -/
theorem mk_data (l : List Char) : (String.mk l).data = l := rfl

end DebateUI

/-- C8 counterexample: with two `Final Answer:` markers in the text, the
extractor uses the **first** occurrence (Python `re.search` is leftmost),
returning "A", not the "B" after the trailing marker as the claim states. -/
theorem C8_counterexample :
    extract_answer "Final Answer: A\nFinal Answer: B" "letter" = some "A" ∧
      some ("A" : String) ≠ some ("B" : String) := ⟨by decide, by decide⟩

/-- C8 (amended): for a text whose **first** (leftmost, case-insensitive)
`Final Answer:` occurrence is followed by whitespace, up to two markdown
asterisks, and a letter, `extract_answer(text, "letter")` returns that
letter's uppercase normalization; and when no `Final Answer:` occurs at all,
the same holds of the first plain `Answer:` occurrence. -/
theorem C8_amended :
    (∀ (pre lit ws stars rest : List Char) (c : Char),
      ciEqList "final answer:".data lit = true →
      (∀ i, i < pre.length →
        ciIsPrefixOf "final answer:".data
          ((pre ++ (lit ++ (ws ++ (stars ++ c :: rest)))).drop i) = false) →
      (∀ x ∈ ws, isPySpace x = true) →
      (∀ x ∈ stars, x = '*') → stars.length ≤ 2 → c.isAlpha = true →
      extract_answer (String.mk (pre ++ (lit ++ (ws ++ (stars ++ c :: rest)))))
        "letter" = some (String.mk [c.toUpper])) ∧
    (∀ (pre lit ws stars rest : List Char) (c : Char),
      ciEqList "answer:".data lit = true →
      (∀ i, i < (pre ++ (lit ++ (ws ++ (stars ++ c :: rest)))).length →
        ciIsPrefixOf "final answer:".data
          ((pre ++ (lit ++ (ws ++ (stars ++ c :: rest)))).drop i) = false) →
      (∀ i, i < pre.length →
        ciIsPrefixOf "answer:".data
          ((pre ++ (lit ++ (ws ++ (stars ++ c :: rest)))).drop i) = false) →
      (∀ x ∈ ws, isPySpace x = true) →
      (∀ x ∈ stars, x = '*') → stars.length ≤ 2 → c.isAlpha = true →
      extract_answer (String.mk (pre ++ (lit ++ (ws ++ (stars ++ c :: rest)))))
        "letter" = some (String.mk [c.toUpper])) := by
  constructor
  · intro pre lit ws stars rest c hlit hpre hws hstars hlen hc
    unfold extract_answer
    simp only [mk_data]
    rw [scanMarker_capture "final answer:".data pre lit ws stars rest c
      (by decide) hlit hpre hws hstars hc]
    dsimp only
    rw [if_pos (show (("letter" : String) == "letter") = true from rfl)]
    rw [pyStripL_keep stars c _ (fun x hx => by rw [hstars x hx]; rfl)
      (isAlpha_not_space c hc)]
    exact letterNarrow_shape stars c _ hstars hlen hc
  · intro pre lit ws stars rest c hlit hnofa hpre hws hstars hlen hc
    unfold extract_answer
    simp only [mk_data]
    rw [scanMarker_none "final answer:".data _ hnofa]
    rw [scanMarker_capture "answer:".data pre lit ws stars rest c
      (by decide) hlit hpre hws hstars hc]
    dsimp only
    rw [if_pos (show (("letter" : String) == "letter") = true from rfl)]
    rw [pyStripL_keep stars c _ (fun x hx => by rw [hstars x hx]; rfl)
      (isAlpha_not_space c hc)]
    exact letterNarrow_shape stars c _ hstars hlen hc

/-- C8 witness: the amended theorem at two concrete texts,
`"We agree. Final Answer: **b** ok"` and `"so Answer: c."`. -/
theorem C8_witness :
    extract_answer (String.mk ("We agree. ".data ++ ("Final Answer:".data ++
        (" ".data ++ ("**".data ++ 'b' :: "** ok".data))))) "letter" =
      some (String.mk ['b'.toUpper]) ∧
    extract_answer (String.mk ("so ".data ++ ("Answer:".data ++
        (" ".data ++ ([] ++ 'c' :: ".".data))))) "letter" =
      some (String.mk ['c'.toUpper]) :=
  ⟨C8_amended.1 "We agree. ".data "Final Answer:".data " ".data "**".data
      "** ok".data 'b' (by decide) (by decide) (by decide) (by decide)
      (by decide) (by decide),
    C8_amended.2 "so ".data "Answer:".data " ".data [] ".".data 'c'
      (by decide) (by decide) (by decide) (by decide) (by decide) (by decide)
      (by decide)⟩
